import Mathlib

/-!
Verification of the real-time fractal trading pipeline
(`distributed_hft_engine.py` and `real_time_fractal_consumer.py`).

The Python code computes with IEEE-754 doubles; following the spec's numeric
note (§9, "implementations may substitute fixed-point decimal"), monetary and
score arithmetic is embedded exactly over `ℚ`, and the transcendental parts of
the box-counting kernel (`math.log`, `statistics.stdev`'s square root) over `ℝ`.
Python dictionaries (`positions`, `current_prices`) are embedded as association
lists in insertion order; `collections.deque` windows as `List`.
-/

namespace HFTSpec

/-! ## Basic numeric helpers shared by the two modules -/

/-- Python `min(xs)` over a nonempty list of rationals ( `0` on `[]`, which the
source never reaches: every call site is guarded by a length check). -/
def minQ : List ℚ → ℚ
  | [] => 0
  | h :: t => t.foldl min h

/-- Python `max(xs)` over a nonempty list of rationals. -/
def maxQ : List ℚ → ℚ
  | [] => 0
  | h :: t => t.foldl max h

/-- Python `statistics.mean(xs)` (exact over `ℚ`; `0` on `[]`). -/
def meanQ (l : List ℚ) : ℚ := l.sum / l.length

/-- Sample variance as used by Python `statistics.stdev` (denominator `n - 1`). -/
def sampleVarQ (l : List ℚ) : ℚ :=
  (l.map (fun x => (x - meanQ l) ^ 2)).sum / ((l.length : ℚ) - 1)

/-- Python `int(q)`: truncation toward zero. -/
def truncQ (q : ℚ) : ℤ := if 0 ≤ q then ⌊q⌋ else -⌊-q⌋

/-- Simple returns `(p[i] - p[i-1]) / p[i-1]` as computed in
`_classify_pattern` and `_calculate_pattern_strength`. -/
def returnsOf (prices : List ℚ) : List ℚ :=
  (prices.zip prices.tail).map (fun pq => (pq.2 - pq.1) / pq.1)

/-- Python `xs[-n:]`: the last `n` elements. -/
def lastN (n : ℕ) (l : List ℚ) : List ℚ := l.drop (l.length - n)

/-! ## `FractalSignalProcessor` (distributed_hft_engine.py, lines 109-217) -/

/-- Incoming fractal-pattern record as consumed by
`FractalSignalProcessor.process_fractal_pattern` (the fields it reads). -/
structure PatternRecord where
  symbol : String
  pattern_type : String
  confidence : ℚ
  risk_score : ℚ
  prediction_signal : String
  deriving DecidableEq, Repr

/-- Trading-signal dictionary built by `process_fractal_pattern`. -/
structure TradingSignal where
  symbol : String
  action : String
  signal_strength : ℚ
  position_size : ℚ
  confidence : ℚ
  risk_score : ℚ
  pattern_type : String
  priority : String
  deriving DecidableEq, Repr

/-- `FractalSignalProcessor._calculate_signal_strength`: confidence scaled by a
pattern-type multiplier and a prediction multiplier, minus a risk penalty,
clamped to `[0, 1]`. -/
def calculate_signal_strength (pattern_type : String) (confidence : ℚ)
    (risk_score : ℚ) (prediction_signal : String) : ℚ :=
  let pattern_mult : ℚ :=
    if pattern_type = "VOLATILE_BREAKOUT" then 12/10
    else if pattern_type = "VOLATILE_UPTREND" then 11/10
    else if pattern_type = "VOLATILE_DOWNTREND" then 11/10
    else if pattern_type = "TRENDING_FRACTAL" then 105/100
    else if pattern_type = "SMOOTH_TREND" then 9/10
    else if pattern_type = "VOLATILE_RANGE" then 8/10
    else if pattern_type = "CHOPPY" then 6/10
    else 1
  let signal_mult : ℚ :=
    if prediction_signal = "STRONG_BUY" then 13/10
    else if prediction_signal = "STRONG_SELL" then 13/10
    else if prediction_signal = "BUY" then 11/10
    else if prediction_signal = "SELL" then 11/10
    else if prediction_signal = "HOLD" then 7/10
    else if prediction_signal = "NEUTRAL" then 5/10
    else if prediction_signal = "AVOID" then 2/10
    else 1
  let risk_penalty : ℚ := min (3/10) (risk_score * (15/100))
  max 0 (min 1 (confidence * pattern_mult * signal_mult - risk_penalty))

/-- `FractalSignalProcessor._calculate_position_size`:
`1000 · (0.5 + strength·1.5) · max(0.2, 1 − risk·0.3)` clamped to `[100, 10000]`. -/
def calculate_position_size (signal_strength : ℚ) (risk_score : ℚ) : ℚ :=
  let base_size : ℚ := 1000
  let strength_multiplier : ℚ := 1/2 + signal_strength * (3/2)
  let risk_multiplier : ℚ := max (2/10) (1 - risk_score * (3/10))
  let position_size := base_size * strength_multiplier * risk_multiplier
  max 100 (min 10000 position_size)

/-- `FractalSignalProcessor.process_fractal_pattern`: drops the pattern when
`confidence < 0.7` or `risk_score > 1.5`, otherwise builds the trading signal.
(The Python `try`/`except` only catches missing dictionary keys, which the
typed record rules out.) -/
def process_fractal_pattern (p : PatternRecord) : Option TradingSignal :=
  if p.confidence < 7/10 then none
  else if p.risk_score > 3/2 then none
  else
    let signal_strength :=
      calculate_signal_strength p.pattern_type p.confidence p.risk_score p.prediction_signal
    let position_size := calculate_position_size signal_strength p.risk_score
    some
      { symbol := p.symbol
        action := p.prediction_signal
        signal_strength := signal_strength
        position_size := position_size
        confidence := p.confidence
        risk_score := p.risk_score
        pattern_type := p.pattern_type
        priority := if signal_strength > 8/10 then "HIGH" else "MEDIUM" }

/-- Order side (`OrderSide` enum). -/
inductive OrderSide where
  | buy
  | sell
  deriving DecidableEq, Repr

/-- Order type (`OrderType` enum; the pipeline only creates `market` orders). -/
inductive OrderTy where
  | market
  | limit
  deriving DecidableEq, Repr

/-- Trading order (the `Order` dataclass fields used by the risk gate and the
order builder). -/
structure Order where
  order_id : String
  symbol : String
  side : OrderSide
  order_type : OrderTy
  quantity : ℚ
  price : Option ℚ
  risk_score : ℚ
  deriving DecidableEq, Repr

/-- Is the prediction one of the four actions that the order builder turns
into an order (`BUY`/`STRONG_BUY`/`SELL`/`STRONG_SELL`)? -/
def isDirectional (action : String) : Bool :=
  action = "BUY" || action = "STRONG_BUY" || action = "SELL" || action = "STRONG_SELL"

/-- `DistributedHFTEngine._create_order_from_signal`: directional actions become
market orders sized by the signal's `position_size`; anything else yields no
order. -/
def create_order_from_signal (s : TradingSignal) : Option Order :=
  if s.action = "BUY" || s.action = "STRONG_BUY" then
    some { order_id := "HFT_" ++ s.symbol, symbol := s.symbol, side := OrderSide.buy
           order_type := OrderTy.market, quantity := s.position_size, price := none
           risk_score := s.risk_score }
  else if s.action = "SELL" || s.action = "STRONG_SELL" then
    some { order_id := "HFT_" ++ s.symbol, symbol := s.symbol, side := OrderSide.sell
           order_type := OrderTy.market, quantity := s.position_size, price := none
           risk_score := s.risk_score }
  else none

/-! ## `PortfolioManager` (distributed_hft_engine.py, lines 219-340) -/

/-- The `Position` dataclass. -/
structure Position where
  quantity : ℚ
  average_price : ℚ
  market_value : ℚ
  unrealized_pnl : ℚ
  realized_pnl : ℚ
  last_update_us : ℤ
  deriving DecidableEq, Repr

/-- The `TradeExecution` dataclass (fields consumed by `update_position`). -/
structure TradeExecution where
  symbol : String
  side : OrderSide
  quantity : ℚ
  price : ℚ
  timestamp_us : ℤ
  commission : ℚ
  deriving DecidableEq, Repr

/-- `PortfolioManager` state.  `positions` is the `symbol -> Position` dict in
insertion order. -/
structure Portfolio where
  initial_capital : ℚ
  current_capital : ℚ
  positions : List (String × Position)
  total_trades : ℕ
  winning_trades : ℕ
  total_pnl : ℚ
  max_drawdown : ℚ
  peak_portfolio_value : ℚ
  deriving DecidableEq, Repr

/-- `PortfolioManager.__init__(initial_capital)`. -/
def Portfolio.init (initial_capital : ℚ) : Portfolio :=
  { initial_capital := initial_capital
    current_capital := initial_capital
    positions := []
    total_trades := 0
    winning_trades := 0
    total_pnl := 0
    max_drawdown := 0
    peak_portfolio_value := initial_capital }

/-- Replace the value stored under key `k` in an association list (Python dict
entry assignment for an existing key). -/
def setAssoc (l : List (String × Position)) (k : String) (v : Position) :
    List (String × Position) :=
  match l with
  | [] => []
  | (a, b) :: t => if a = k then (a, v) :: t else (a, b) :: setAssoc t k v

/-- Refresh one position from a price dictionary as done inside
`calculate_portfolio_value`'s loop body (symbols absent from the dict are left
untouched). -/
def markPositionVal (prices : List (String × ℚ)) (sp : String × Position) :
    Position :=
  match prices.lookup sp.1 with
  | some price =>
      let mv := sp.2.quantity * price
      { sp.2 with market_value := mv
                  unrealized_pnl := mv - sp.2.quantity * sp.2.average_price }
  | none => sp.2

/-- The marked dictionary entry (the key is unchanged). -/
def markPosition (prices : List (String × ℚ)) (sp : String × Position) :
    String × Position :=
  (sp.1, markPositionVal prices sp)

/-- Contribution of one position to the summed total in
`calculate_portfolio_value` (zero when the symbol has no current price). -/
def markValue (prices : List (String × ℚ)) (sp : String × Position) : ℚ :=
  match prices.lookup sp.1 with
  | some price => sp.2.quantity * price
  | none => 0

/-- `PortfolioManager.calculate_portfolio_value(current_prices)`: returns
`current_capital` plus the market value of every position whose symbol appears
in `current_prices`, and (as a side effect in the source) rewrites those
positions' `market_value` and `unrealized_pnl`. -/
def calculate_portfolio_value (prices : List (String × ℚ)) (pf : Portfolio) :
    ℚ × Portfolio :=
  ((pf.positions.map (markValue prices)).sum + pf.current_capital,
   { pf with positions := pf.positions.map (markPosition prices) })

/-- Reason string returned by `check_risk_limits`. -/
inductive RiskReason where
  | positionSize
  | totalExposure
  | insufficientCapital
  | passed
  deriving DecidableEq, Repr

/-- `PortfolioManager.check_risk_limits(order, current_price)`: per-position cap
5%, aggregate exposure cap 80% (both against the portfolio value floored at 1),
and a 95%-of-cash capital-adequacy check for buys. -/
def check_risk_limits (order : Order) (current_price : ℚ) (pf : Portfolio) :
    Bool × RiskReason :=
  let order_value := order.quantity * current_price
  let portfolio_value :=
    pf.current_capital + (pf.positions.map (fun sp => sp.2.market_value)).sum
  if order_value / max portfolio_value 1 > 1/20 then
    (false, RiskReason.positionSize)
  else
    let current_exposure := (pf.positions.map (fun sp => |sp.2.market_value|)).sum
    if (current_exposure + order_value) / max portfolio_value 1 > 4/5 then
      (false, RiskReason.totalExposure)
    else if order.side = OrderSide.buy ∧ order_value > pf.current_capital * (19/20) then
      (false, RiskReason.insufficientCapital)
    else (true, RiskReason.passed)

/-- The freshly created position of `update_position` for a symbol not yet in
the dictionary. -/
def freshPos (ts : ℤ) : Position :=
  { quantity := 0, average_price := 0, market_value := 0
    unrealized_pnl := 0, realized_pnl := 0, last_update_us := ts }

/-- The ledger half of `PortfolioManager.update_position` (lines 289-329):
create the position if absent, apply the BUY/SELL branch to quantity, average
price, realized PnL, cash and the win counter, stamp `last_update_us`, and
increment `total_trades`. -/
def ledgerStep (t : TradeExecution) (pf : Portfolio) : Portfolio :=
  let positions0 :=
    if (pf.positions.lookup t.symbol).isSome then pf.positions
    else pf.positions ++ [(t.symbol, freshPos t.timestamp_us)]
  let position := (positions0.lookup t.symbol).getD (freshPos t.timestamp_us)
  match t.side with
  | OrderSide.buy =>
      let new_quantity := position.quantity + t.quantity
      let new_avg :=
        if new_quantity ≠ 0 then
          (position.quantity * position.average_price + t.quantity * t.price) /
            new_quantity
        else position.average_price
      let position' := { position with quantity := new_quantity
                                       average_price := new_avg
                                       last_update_us := t.timestamp_us }
      { pf with positions := setAssoc positions0 t.symbol position'
                current_capital :=
                  pf.current_capital - (t.quantity * t.price + t.commission)
                total_trades := pf.total_trades + 1 }
  | OrderSide.sell =>
      let realized_pnl := (t.price - position.average_price) * t.quantity
      let position' := { position with quantity := position.quantity - t.quantity
                                       realized_pnl := position.realized_pnl + realized_pnl
                                       last_update_us := t.timestamp_us }
      { pf with positions := setAssoc positions0 t.symbol position'
                current_capital :=
                  pf.current_capital + (t.quantity * t.price - t.commission)
                total_pnl := pf.total_pnl + realized_pnl
                winning_trades :=
                  pf.winning_trades + (if realized_pnl > 0 then 1 else 0)
                total_trades := pf.total_trades + 1 }

/-- The portfolio value that `update_position` recomputes at the end of a trade
update: `calculate_portfolio_value({trade.symbol: trade.price})` on the
post-ledger state. -/
def recomputedValue (t : TradeExecution) (pf : Portfolio) : ℚ :=
  (calculate_portfolio_value [(t.symbol, t.price)] (ledgerStep t pf)).1

/-- `PortfolioManager.update_position(trade)`: ledger update, then the
single-symbol portfolio-value recomputation feeding the peak / drawdown
tracking. -/
def update_position (t : TradeExecution) (pf : Portfolio) : Portfolio :=
  let pf1 := ledgerStep t pf
  let vpf := calculate_portfolio_value [(t.symbol, t.price)] pf1
  let current_portfolio_value := vpf.1
  let pf2 := vpf.2
  if current_portfolio_value > pf2.peak_portfolio_value then
    { pf2 with peak_portfolio_value := current_portfolio_value }
  else
    { pf2 with
        max_drawdown := max pf2.max_drawdown
          ((pf2.peak_portfolio_value - current_portfolio_value) /
            pf2.peak_portfolio_value) }

/-- Apply a sequence of trade executions. -/
def applyTrades (pf : Portfolio) (ts : List TradeExecution) : Portfolio :=
  ts.foldl (fun acc t => update_position t acc) pf

/-- The recomputed portfolio value observed at each update of a trade
sequence. -/
def valueTrace : Portfolio → List TradeExecution → List ℚ
  | _, [] => []
  | pf, t :: ts => recomputedValue t pf :: valueTrace (update_position t pf) ts

/-- Per-update drawdown `(peak − value)/peak` against the running peak
(after folding the new value into the peak). -/
def ddStep (t : TradeExecution) (pf : Portfolio) : ℚ :=
  let v := recomputedValue t pf
  let peak := max pf.peak_portfolio_value v
  (peak - v) / peak

/-- The drawdown observed at each update of a trade sequence. -/
def ddTrace : Portfolio → List TradeExecution → List ℚ
  | _, [] => []
  | pf, t :: ts => ddStep t pf :: ddTrace (update_position t pf) ts

/-- Modelled from the claim's words, for comparison with `recomputedValue`:
cash plus the sum over all held symbols of quantity times mark, the traded
symbol marked at the executed trade price and every other held symbol at its
last known mark (its stored `market_value`). -/
def claimRecomputedValue (t : TradeExecution) (pf : Portfolio) : ℚ :=
  let pf1 := ledgerStep t pf
  pf1.current_capital +
    (pf1.positions.map (fun sp =>
      if sp.1 = t.symbol then sp.2.quantity * t.price else sp.2.market_value)).sum

/-! ## `RealTimeFractalDetector._fast_box_counting`
(real_time_fractal_consumer.py, lines 181-231) -/

/-- Linear normalization of prices into `[0,1]` (step (2) of the kernel). -/
def normalizePrices (prices : List ℚ) : List ℚ :=
  prices.map (fun p => (p - minQ prices) / (maxQ prices - minQ prices))

/-- The box sizes actually used for a window of length `len`: the loop over
`[1, 2, 4, 8, 16]` breaks at the first size `≥ len // 3`. -/
def boxSizesUsed (len : ℕ) : List ℕ :=
  [1, 2, 4, 8, 16].takeWhile (fun s => s < len / 3)

/-- Number of distinct cells `(i // s, int(p_i · s))` covered by the samples
`normalized[:-1]` (the `boxes` set of the source; `int` truncates toward zero,
which on the nonnegative normalized values is the floor). -/
def boxCount (normalized : List ℚ) (s : ℕ) : ℕ :=
  ((normalized.dropLast.enum.map
    (fun ia => (ia.1 / s, truncQ (ia.2 * s)))).dedup).length

/-- The usable `(box_size, count)` pairs of the kernel: sizes below `len // 3`
whose occupied-cell count exceeds 1 (only those contribute to `log_sizes` /
`log_counts`). -/
def usablePairs (prices : List ℚ) : List (ℕ × ℕ) :=
  (boxSizesUsed prices.length).filterMap (fun s =>
    let c := boxCount (normalizePrices prices) s
    if 1 < c then some (s, c) else none)

/-- `Σ log(1/s)` over the usable pairs (`sum_x` in the source). -/
noncomputable def fbcSumX (pairs : List (ℕ × ℕ)) : ℝ :=
  (pairs.map (fun pr => Real.log (1 / (pr.1 : ℝ)))).sum

/-- `Σ log(count)` over the usable pairs (`sum_y`). -/
noncomputable def fbcSumY (pairs : List (ℕ × ℕ)) : ℝ :=
  (pairs.map (fun pr => Real.log (pr.2 : ℝ))).sum

/-- `Σ log(1/s) · log(count)` (`sum_xy`). -/
noncomputable def fbcSumXY (pairs : List (ℕ × ℕ)) : ℝ :=
  (pairs.map (fun pr => Real.log (1 / (pr.1 : ℝ)) * Real.log (pr.2 : ℝ))).sum

/-- `Σ log(1/s)²` (`sum_xx`). -/
noncomputable def fbcSumXX (pairs : List (ℕ × ℕ)) : ℝ :=
  (pairs.map (fun pr => Real.log (1 / (pr.1 : ℝ)) * Real.log (1 / (pr.1 : ℝ)))).sum

/-- Least-squares denominator `n·sum_xx − sum_x²` of the simplified linear
regression. -/
noncomputable def fbcDenom (prices : List ℚ) : ℝ :=
  let pairs := usablePairs prices
  (pairs.length : ℝ) * fbcSumXX pairs - fbcSumX pairs * fbcSumX pairs

/-- Least-squares slope `(n·sum_xy − sum_x·sum_y) / denom`. -/
noncomputable def fbcSlope (prices : List ℚ) : ℝ :=
  let pairs := usablePairs prices
  ((pairs.length : ℝ) * fbcSumXY pairs - fbcSumX pairs * fbcSumY pairs) /
    fbcDenom prices

/-- `RealTimeFractalDetector._fast_box_counting(prices)`: `1.0` on short or
flat windows, on fewer than two usable box sizes, or on a near-singular fit;
otherwise the regression slope clamped to `[1, 2]`. -/
noncomputable def fast_box_counting (prices : List ℚ) : ℝ :=
  if prices.length < 10 then 1
  else if maxQ prices - minQ prices = 0 then 1
  else if (usablePairs prices).length < 2 then 1
  else if |fbcDenom prices| < 1 / 10 ^ 10 then 1
  else max 1 (min 2 (fbcSlope prices))

/-! ## `RealTimeFractalDetector` scoring and window detection
(real_time_fractal_consumer.py, lines 130-345) -/

/-- Detected fractal pattern (the `FractalPattern` dataclass). -/
structure FractalPattern where
  symbol : String
  pattern_type : String
  start_time_us : ℤ
  end_time_us : ℤ
  duration_ms : ℤ
  fractal_dimension : ℝ
  confidence : ℝ
  price_range : ℚ × ℚ
  volatility_avg : ℚ
  pattern_strength : ℚ
  prediction_signal : String
  risk_score : ℝ

/-- `RealTimeFractalDetector._classify_pattern(prices, volatilities, fd)`. -/
noncomputable def classify_pattern (prices : List ℚ) (volatilities : List ℚ)
    (fractal_dim : ℝ) : String :=
  let avg_vol := meanQ volatilities
  let returns := returnsOf prices
  let trend : ℚ := if returns.length ≥ 10 then (lastN 10 returns).sum else 0
  if fractal_dim < 12/10 then
    (if |trend| > 1/100 then "SMOOTH_TREND" else "SIDEWAYS")
  else if fractal_dim > 18/10 then
    (if avg_vol > 1/20 then "VOLATILE_BREAKOUT" else "CHOPPY")
  else if fractal_dim > 16/10 then
    (if trend > 2/100 then "VOLATILE_UPTREND"
     else if trend < -(2/100) then "VOLATILE_DOWNTREND"
     else "VOLATILE_RANGE")
  else if fractal_dim > 14/10 then
    (if |trend| > 15/1000 then "TRENDING_FRACTAL" else "RANGE_FRACTAL")
  else "NORMAL_MOVEMENT"

/-- `RealTimeFractalDetector._calculate_confidence(prices, fd, volatilities)`:
weighted sum of the dimension, range, volatility-consistency and length
sub-scores, clamped to `[0,1]`. -/
noncomputable def calculate_confidence (prices : List ℚ) (fractal_dim : ℝ)
    (volatilities : List ℚ) : ℝ :=
  let dim_score : ℝ := max 0 (min 1 (1 - |fractal_dim - 3/2| / (1/2)))
  let price_range : ℚ := (maxQ prices - minQ prices) / meanQ prices
  let range_score : ℚ := min 1 (price_range * 20)
  let vol_consistency : ℝ :=
    max 0 (min 1 (1 - Real.sqrt (sampleVarQ volatilities) /
      (max (meanQ volatilities) (1/1000) : ℚ)))
  let length_score : ℚ := min 1 ((prices.length : ℚ) / 50)
  max 0 (min 1 (dim_score * (3/10) + (range_score : ℝ) * (3/10) +
    vol_consistency * (2/10) + (length_score : ℝ) * (2/10)))

/-- `RealTimeFractalDetector._calculate_pattern_strength(prices, volatilities)`:
`(momentum·10 + mean(V)/0.02) / 2` clamped to `[0,1]`. -/
def calculate_pattern_strength (prices : List ℚ) (volatilities : List ℚ) : ℚ :=
  let returns := returnsOf prices
  let momentum : ℚ := if returns.length ≥ 5 then |(lastN 5 returns).sum| else 0
  let vol_strength : ℚ := meanQ volatilities / (2/100)
  max 0 (min 1 ((momentum * 10 + vol_strength) / 2))

/-- `RealTimeFractalDetector._generate_prediction_signal(pattern, fd, strength)`. -/
noncomputable def generate_prediction_signal (pattern_type : String)
    (fractal_dim : ℝ) (strength : ℚ) : String :=
  if strength < 3/10 then "NEUTRAL"
  else
    let base_signal :=
      if pattern_type = "VOLATILE_UPTREND" then "BUY"
      else if pattern_type = "VOLATILE_BREAKOUT" then
        (if fractal_dim > 17/10 then "BUY" else "NEUTRAL")
      else if pattern_type = "SMOOTH_TREND" then "HOLD"
      else if pattern_type = "VOLATILE_DOWNTREND" then "SELL"
      else if pattern_type = "TRENDING_FRACTAL" then "HOLD"
      else if pattern_type = "VOLATILE_RANGE" then "NEUTRAL"
      else if pattern_type = "CHOPPY" then "AVOID"
      else "NEUTRAL"
    if strength > 8/10 then
      (if base_signal = "BUY" then "STRONG_BUY"
       else if base_signal = "SELL" then "STRONG_SELL"
       else base_signal)
    else if strength < 4/10 then
      (if base_signal ≠ "NEUTRAL" then "WEAK_" ++ base_signal else "NEUTRAL")
    else base_signal

/-- `RealTimeFractalDetector._calculate_risk_score(volatilities, fd)`. -/
noncomputable def calculate_risk_score (volatilities : List ℚ)
    (fractal_dim : ℝ) : ℝ :=
  let avg_vol := meanQ volatilities
  let vol_spike : ℚ := maxQ volatilities / max avg_vol (1/1000)
  let volatility_risk : ℚ := min 2 (avg_vol / (3/100))
  let fractal_risk : ℝ := max 0 ((fractal_dim - 3/2) * 2)
  let spike_risk : ℚ := max 0 ((vol_spike - 2) / 2)
  (volatility_risk : ℝ) + fractal_risk + (spike_risk : ℝ)

/-- Prices of a window buffer entry list (each entry is
`(timestamp_us, price, volatility)`). -/
def pricesOf (buffer : List (ℤ × ℚ × ℚ)) : List ℚ := buffer.map (fun e => e.2.1)

/-- Volatilities of a window buffer entry list. -/
def volsOf (buffer : List (ℤ × ℚ × ℚ)) : List ℚ := buffer.map (fun e => e.2.2)

/-- Timestamps of a window buffer entry list. -/
def timesOf (buffer : List (ℤ × ℚ × ℚ)) : List ℤ := buffer.map (fun e => e.1)

/-- `RealTimeFractalDetector._detect_pattern_in_window(symbol, buffer, n)`:
classify the window, compute confidence, and emit the pattern unless the
confidence falls below the detector's `min_pattern_strength = 0.6` gate.
(`_classify_pattern` never returns the string `"NO_PATTERN"`, so that early
exit is dead; it is kept for fidelity.) -/
noncomputable def detect_pattern_in_window (symbol : String)
    (buffer : List (ℤ × ℚ × ℚ)) (window_size : ℕ) : Option FractalPattern :=
  if buffer.length < window_size then none
  else
    let timestamps := timesOf buffer
    let prices := pricesOf buffer
    let volatilities := volsOf buffer
    let fractal_dim := fast_box_counting prices
    let pattern_type := classify_pattern prices volatilities fractal_dim
    if pattern_type = "NO_PATTERN" then none
    else
      let confidence := calculate_confidence prices fractal_dim volatilities
      if confidence < 6/10 then none
      else
        let strength := calculate_pattern_strength prices volatilities
        let signal := generate_prediction_signal pattern_type fractal_dim strength
        let risk_score := calculate_risk_score volatilities fractal_dim
        some
          { symbol := symbol
            pattern_type := pattern_type
            start_time_us := timestamps.headD 0
            end_time_us := timestamps.getLastD 0
            duration_ms := (timestamps.getLastD 0 - timestamps.headD 0) / 1000
            fractal_dimension := fractal_dim
            confidence := confidence
            price_range := (minQ prices, maxQ prices)
            volatility_avg := meanQ volatilities
            pattern_strength := strength
            prediction_signal := signal
            risk_score := risk_score }

/-- A 50-tick window alternating between prices 24.5 and 25.5 with constant
volatility 0.01: a concrete buffer on which the detector emits a pattern whose
confidence is 0.64 ∈ [0.6, 0.7). -/
def w50 : List (ℤ × ℚ × ℚ) :=
  (List.range 50).map (fun i => ((i : ℤ), (if i % 2 = 0 then (49:ℚ)/2 else 51/2, 1/100)))

/-- A 20-tick flat window at price 1 with constant volatility 0.01: its
confidence is 0.28 < 0.6, so the detector suppresses it. -/
def w20 : List (ℤ × ℚ × ℚ) :=
  (List.range 20).map (fun i => ((i : ℤ), ((1:ℚ), 1/100)))

/-! ## `OrderExecutionEngine` intake queue
(distributed_hft_engine.py, lines 342-398)

`submit_order` puts `(priority, order)` into a `queue.PriorityQueue`
(priority `0` for HIGH signals, `1` for MEDIUM), and a single consumer thread
takes entries out; CPython's `PriorityQueue` is a binary heap (`heapq`).  The
model below follows the `heapq` push/pop algorithms exactly, over entries
`(priority, order-id)`, including CPython's tuple comparison semantics:
`(p1, o1) < (p2, o2)` first tests `p1 == p2`; distinct priorities decide the
result, but on a priority tie the `Order` dataclasses are compared, and since
`Order` defines no `__lt__`, two distinct orders (distinct ids) raise
`TypeError`.  Every sift therefore returns `Except Unit (List QEntry)`:
`Except.error ()` is the `TypeError` escaping `heappush`/`heappop` (in
`submit_order` the exception is caught and the order dropped).  The `while`
loops of `_siftdown` / `_siftup` are embedded with an explicit fuel that
dominates their iteration count. -/

/-- A queued entry: `(priority, order id)`. -/
abbrev QEntry := ℕ × ℕ

/-- Element at index `i` of a heap array (default `(0, 0)` out of range; all
accesses below stay in range). -/
def hGet (l : List QEntry) (i : ℕ) : QEntry := l.getD i (0, 0)

/-- `heapq._siftdown(heap, startpos, pos)`: bubble `item` up from `pos` toward
`startpos` while it is strictly smaller than its parent.  The comparison
`newitem < parent` is CPython tuple comparison: equal priorities with equal
ids compare not-less (the loop exits); equal priorities with distinct ids
raise `TypeError` (`Except.error ()`); otherwise the priorities decide.
`fuel ≥ pos` makes the fuel never run out before the loop exits. -/
def siftdownAux (startpos : ℕ) (item : QEntry) :
    ℕ → List QEntry → ℕ → Except Unit (List QEntry)
  | 0, heap, pos => Except.ok (heap.set pos item)
  | fuel + 1, heap, pos =>
    if startpos < pos then
      let parentpos := (pos - 1) / 2
      let parent := hGet heap parentpos
      if item.1 = parent.1 then
        if item.2 = parent.2 then Except.ok (heap.set pos item)
        else Except.error ()
      else
        if item.1 < parent.1 then
          siftdownAux startpos item fuel (heap.set pos parent) parentpos
        else Except.ok (heap.set pos item)
    else Except.ok (heap.set pos item)

/-- `heapq._siftdown` with the fuel instantiated. -/
def siftdown (startpos : ℕ) (item : QEntry) (heap : List QEntry) (pos : ℕ) :
    Except Unit (List QEntry) :=
  siftdownAux startpos item pos heap pos

/-- `heapq._siftup(heap, pos)` for `newitem = item`: move the smaller child up
along a path to a leaf, then restore with `_siftdown`.  The child selection
`not heap[childpos] < heap[rightpos]` again uses tuple comparison: a priority
tie between distinct ids raises `TypeError`, a tie between equal entries
compares not-less (so the right child is taken), and otherwise the priorities
decide.  `fuel ≥ len − pos` suffices. -/
def siftupAux (startpos : ℕ) (item : QEntry) :
    ℕ → List QEntry → ℕ → Except Unit (List QEntry)
  | 0, heap, pos => siftdown startpos item (heap.set pos item) pos
  | fuel + 1, heap, pos =>
    let endpos := heap.length
    let childpos := 2 * pos + 1
    if childpos < endpos then
      let rightpos := childpos + 1
      if rightpos < endpos then
        if (hGet heap childpos).1 = (hGet heap rightpos).1 then
          if (hGet heap childpos).2 = (hGet heap rightpos).2 then
            siftupAux startpos item fuel (heap.set pos (hGet heap rightpos)) rightpos
          else Except.error ()
        else
          if (hGet heap childpos).1 < (hGet heap rightpos).1 then
            siftupAux startpos item fuel (heap.set pos (hGet heap childpos)) childpos
          else
            siftupAux startpos item fuel (heap.set pos (hGet heap rightpos)) rightpos
      else siftupAux startpos item fuel (heap.set pos (hGet heap childpos)) childpos
    else siftdown startpos item (heap.set pos item) pos

/-- `heapq.heappush(heap, item)`: append, then sift up from the last slot;
a priority tie along the bubble-up path raises. -/
def heappush (heap : List QEntry) (item : QEntry) : Except Unit (List QEntry) :=
  siftdown 0 item (heap ++ [item]) heap.length

/-- `heapq.heappop(heap)`: pop the last element; if the heap is still
nonempty, the root is returned and the last element is sifted from the root
(which can raise on a priority tie).  `Except.ok none` models the blocked
`get` on an empty queue. -/
def heappop (heap : List QEntry) : Except Unit (Option (QEntry × List QEntry)) :=
  match heap with
  | [] => Except.ok none
  | _ :: _ =>
    let lastelt := heap.getLastD (0, 0)
    let rest := heap.dropLast
    match rest with
    | [] => Except.ok (some (lastelt, []))
    | _ :: _ =>
      match siftupAux 0 lastelt rest.length (rest.set 0 lastelt) 0 with
      | Except.error e => Except.error e
      | Except.ok h => Except.ok (some (hGet rest 0, h))

/-- Drain the queue: repeatedly pop until empty (the consumer loop of
`_process_execution_queue` once producers stop), stopping at the first
`TypeError`. -/
def drainAux : ℕ → List QEntry → Except Unit (List QEntry)
  | 0, _ => Except.ok []
  | fuel + 1, heap =>
    match heappop heap with
    | Except.error e => Except.error e
    | Except.ok none => Except.ok []
    | Except.ok (some (e, h)) =>
      match drainAux fuel h with
      | Except.error e2 => Except.error e2
      | Except.ok t => Except.ok (e :: t)

/-- Drain with the fuel instantiated (a pop removes exactly one element). -/
def drain (heap : List QEntry) : Except Unit (List QEntry) :=
  drainAux heap.length heap

/-- A sequence of `submit_order` calls: push each entry in turn, stopping at
the first `TypeError` (in the program the exception is caught in
`submit_order` and the order dropped). -/
def pushAll : List QEntry → List QEntry → Except Unit (List QEntry)
  | [], heap => Except.ok heap
  | e :: t, heap =>
    match heappush heap e with
    | Except.error err => Except.error err
    | Except.ok h => pushAll t h

/-- The binary-heap shape invariant: every parent's priority is no larger than
its child's. -/
def IsHeap (l : List QEntry) : Prop :=
  ∀ i ∈ List.range l.length, 0 < i → (hGet l ((i - 1) / 2)).1 ≤ (hGet l i).1

instance : DecidablePred IsHeap := fun l =>
  List.decidableBAll _ (List.range l.length)

/-- Virtual read: array `l` with `it` superimposed at the hole `p`. -/
def vGet (l : List QEntry) (p : ℕ) (it : QEntry) (j : ℕ) : QEntry :=
  if j = p then it else hGet l j

/-! ## Theorems -/

set_option maxRecDepth 4000 in
attribute [local semireducible] Rat.add Rat.sub Rat.mul Rat.inv in
/-- C5: the risk gate rejects an order exactly when the per-position cap (5% of
the portfolio value floored at 1), the aggregate-exposure cap (80%), or the
capital-adequacy check for buys (95% of cash) fires, and otherwise accepts; in
particular, with cash 1,000,000 and no positions, a BUY of 1,000,000 units at
price 1.10 is rejected with the position-size reason. -/
theorem claim_C5_risk_gate :
    (∀ (pf : Portfolio) (o : Order) (P : ℚ),
      (check_risk_limits o P pf).1 = false ↔
        ((o.quantity * P) /
            max (pf.current_capital +
              (pf.positions.map (fun sp => sp.2.market_value)).sum) 1 > 1/20 ∨
         ((pf.positions.map (fun sp => |sp.2.market_value|)).sum + o.quantity * P) /
            max (pf.current_capital +
              (pf.positions.map (fun sp => sp.2.market_value)).sum) 1 > 4/5 ∨
         (o.side = OrderSide.buy ∧ o.quantity * P > pf.current_capital * (19/20)))) ∧
    check_risk_limits
      { order_id := "HFT_1", symbol := "EURUSD", side := OrderSide.buy
        order_type := OrderTy.market, quantity := 1000000, price := none
        risk_score := 0 }
      (11/10) (Portfolio.init 1000000) = (false, RiskReason.positionSize) := by
  constructor
  · intro pf o P
    simp only [check_risk_limits]
    split_ifs with h1 h2 h3
    · exact iff_of_true rfl (Or.inl h1)
    · exact iff_of_true rfl (Or.inr (Or.inl h2))
    · exact iff_of_true rfl (Or.inr (Or.inr h3))
    · exact iff_of_false (by simp) (fun hcon => hcon.elim h1 (fun hc => hc.elim h2 h3))
  · decide

/-- C6: the position size equals the spec's formula and always lies in
`[100, 10000]`, hence so does the size attached to every emitted signal. -/
theorem claim_C6_position_size :
    (∀ s r : ℚ, calculate_position_size s r =
        max 100 (min 10000 (1000 * (1/2 + s * (3/2)) * max (2/10) (1 - r * (3/10))))) ∧
    (∀ s r : ℚ, 100 ≤ calculate_position_size s r ∧ calculate_position_size s r ≤ 10000) ∧
    (∀ (p : PatternRecord) (sig : TradingSignal), process_fractal_pattern p = some sig →
      100 ≤ sig.position_size ∧ sig.position_size ≤ 10000) := by
  have hbounds : ∀ s r : ℚ,
      100 ≤ calculate_position_size s r ∧ calculate_position_size s r ≤ 10000 := by
    intro s r
    unfold calculate_position_size
    exact ⟨le_max_left _ _, max_le (by norm_num) (min_le_left _ _)⟩
  refine ⟨fun s r => rfl, hbounds, ?_⟩
  intro p sig h
  simp only [process_fractal_pattern] at h
  by_cases h1 : p.confidence < 7/10
  · rw [if_pos h1] at h; exact absurd h (by simp)
  · rw [if_neg h1] at h
    by_cases h2 : p.risk_score > 3/2
    · rw [if_pos h2] at h; exact absurd h (by simp)
    · rw [if_neg h2] at h
      have h' := Option.some.inj h
      subst h'
      exact hbounds _ _

set_option maxRecDepth 4000 in
attribute [local semireducible] Rat.add Rat.sub Rat.mul Rat.inv in
/-- Witness for C6 at a concrete accepted pattern. -/
theorem claim_C6_position_size_witness :
    process_fractal_pattern
      { symbol := "E", pattern_type := "SIDEWAYS", confidence := 4/5
        risk_score := 1, prediction_signal := "BUY" } =
      some { symbol := "E", action := "BUY", signal_strength := 73/100
             position_size := 2233/2, confidence := 4/5, risk_score := 1
             pattern_type := "SIDEWAYS", priority := "MEDIUM" } ∧
    (100 : ℚ) ≤ 2233/2 ∧ (2233/2 : ℚ) ≤ 10000 := by
  have h : process_fractal_pattern
      { symbol := "E", pattern_type := "SIDEWAYS", confidence := 4/5
        risk_score := 1, prediction_signal := "BUY" } =
      some { symbol := "E", action := "BUY", signal_strength := 73/100
             position_size := 2233/2, confidence := 4/5, risk_score := 1
             pattern_type := "SIDEWAYS", priority := "MEDIUM" } := by decide
  exact ⟨h, (claim_C6_position_size.2.2 _ _ h).1, (claim_C6_position_size.2.2 _ _ h).2⟩

set_option maxRecDepth 4000 in
attribute [local semireducible] Rat.add Rat.sub Rat.mul Rat.inv in
/-- C3, counterexample: a pattern with confidence `0.8 ≥ 0.7`, risk `1 ≤ 1.5`
and the non-directional prediction `HOLD` still creates a trading signal, so
"a trading signal is created only if its prediction maps to a directional
action" fails on the code (the directional filter only applies later, in the
order builder). -/
theorem claim_C3_counterexample :
    (process_fractal_pattern
      { symbol := "EURUSD", pattern_type := "SIDEWAYS", confidence := 4/5
        risk_score := 1, prediction_signal := "HOLD" }).isSome = true ∧
    isDirectional "HOLD" = false := by
  exact ⟨by decide, by decide⟩

/-- C3, amended: a trading signal is created iff confidence `≥ 0.7` and risk
`≤ 1.5`; an order is created iff additionally the prediction is directional;
hence no pattern with confidence `< 0.7` or risk `> 1.5` ever produces an
order record. -/
theorem claim_C3_signal_gate (p : PatternRecord) :
    ((process_fractal_pattern p).isSome = true ↔
      7/10 ≤ p.confidence ∧ p.risk_score ≤ 3/2) ∧
    (((process_fractal_pattern p).bind create_order_from_signal).isSome = true ↔
      (7/10 ≤ p.confidence ∧ p.risk_score ≤ 3/2 ∧
        isDirectional p.prediction_signal = true)) ∧
    (p.confidence < 7/10 ∨ 3/2 < p.risk_score →
      (process_fractal_pattern p).bind create_order_from_signal = none) := by
  have hsig : (process_fractal_pattern p).isSome = true ↔
      7/10 ≤ p.confidence ∧ p.risk_score ≤ 3/2 := by
    simp only [process_fractal_pattern]
    by_cases h1 : p.confidence < 7/10
    · rw [if_pos h1]
      simp only [Option.isSome_none, Bool.false_eq_true, false_iff]
      rintro ⟨hc, -⟩; linarith
    · rw [if_neg h1]
      by_cases h2 : p.risk_score > 3/2
      · rw [if_pos h2]
        simp only [Option.isSome_none, Bool.false_eq_true, false_iff]
        rintro ⟨-, hr⟩; linarith
      · rw [if_neg h2]
        simp only [Option.isSome_some, true_iff]
        exact ⟨le_of_not_lt h1, le_of_not_lt h2⟩
  have horder : ((process_fractal_pattern p).bind create_order_from_signal).isSome = true ↔
      (7/10 ≤ p.confidence ∧ p.risk_score ≤ 3/2 ∧
        isDirectional p.prediction_signal = true) := by
    simp only [process_fractal_pattern]
    by_cases h1 : p.confidence < 7/10
    · rw [if_pos h1]
      simp only [Option.none_bind, Option.isSome_none, Bool.false_eq_true, false_iff]
      rintro ⟨hc, -, -⟩; linarith
    · rw [if_neg h1]
      by_cases h2 : p.risk_score > 3/2
      · rw [if_pos h2]
        simp only [Option.none_bind, Option.isSome_none, Bool.false_eq_true, false_iff]
        rintro ⟨-, hr, -⟩; linarith
      · rw [if_neg h2]
        simp only [Option.some_bind, create_order_from_signal]
        by_cases hb : p.prediction_signal = "BUY" ∨ p.prediction_signal = "STRONG_BUY"
        · have : (decide (p.prediction_signal = "BUY") ||
              decide (p.prediction_signal = "STRONG_BUY")) = true := by
            simpa [Bool.or_eq_true, decide_eq_true_eq] using hb
          rw [if_pos this]
          simp only [Option.isSome_some, true_iff]
          refine ⟨le_of_not_lt h1, le_of_not_lt h2, ?_⟩
          simp only [isDirectional, Bool.or_eq_true, decide_eq_true_eq]
          tauto
        · have hbf : (decide (p.prediction_signal = "BUY") ||
              decide (p.prediction_signal = "STRONG_BUY")) = false := by
            simpa [Bool.or_eq_true, decide_eq_true_eq, not_or] using hb
          rw [if_neg (by simp [hbf])]
          by_cases hs : p.prediction_signal = "SELL" ∨ p.prediction_signal = "STRONG_SELL"
          · have : (decide (p.prediction_signal = "SELL") ||
                decide (p.prediction_signal = "STRONG_SELL")) = true := by
              simpa [Bool.or_eq_true, decide_eq_true_eq] using hs
            rw [if_pos this]
            simp only [Option.isSome_some, true_iff]
            refine ⟨le_of_not_lt h1, le_of_not_lt h2, ?_⟩
            simp only [isDirectional, Bool.or_eq_true, decide_eq_true_eq]
            tauto
          · have hsf : (decide (p.prediction_signal = "SELL") ||
                decide (p.prediction_signal = "STRONG_SELL")) = false := by
              simpa [Bool.or_eq_true, decide_eq_true_eq, not_or] using hs
            rw [if_neg (by simp [hsf])]
            simp only [Option.isSome_none, Bool.false_eq_true, false_iff]
            rintro ⟨-, -, hd⟩
            simp only [isDirectional, Bool.or_eq_true, decide_eq_true_eq] at hd
            push_neg at hb hs
            tauto
  refine ⟨hsig, horder, ?_⟩
  intro h
  rcases hh : (process_fractal_pattern p).bind create_order_from_signal with _ | o
  · rfl
  · exfalso
    have hyes : (7/10 ≤ p.confidence ∧ p.risk_score ≤ 3/2 ∧
        isDirectional p.prediction_signal = true) := by
      rw [← horder, hh]; rfl
    rcases h with h | h
    · linarith [hyes.1]
    · linarith [hyes.2.1]

/-! ### Association-list lemmas for the positions dictionary -/

theorem lookup_append_of_none {β : Type} (l l₂ : List (String × β)) (k : String)
    (h : l.lookup k = none) : (l ++ l₂).lookup k = l₂.lookup k := by
  induction l with
  | nil => simp
  | cons a t ih =>
    rcases a with ⟨a1, a2⟩
    by_cases hk : k == a1
    · simp [List.lookup, hk] at h
    · simp only [List.cons_append, List.lookup, hk] at h ⊢
      exact ih h

theorem lookup_cons_self {β : Type} (l : List (String × β)) (k : String) (v : β) :
    (((k, v) :: l).lookup k) = some v := by
  simp [List.lookup]

theorem setAssoc_lookup_self (l : List (String × Position)) (k : String)
    (v : Position) (h : (l.lookup k).isSome = true) :
    (setAssoc l k v).lookup k = some v := by
  induction l with
  | nil => simp [List.lookup] at h
  | cons a t ih =>
    rcases a with ⟨a1, a2⟩
    by_cases hk : a1 = k
    · subst hk
      simp [setAssoc, List.lookup]
    · have hk' : (k == a1) = false := by
        simp only [beq_eq_false_iff_ne, ne_eq]
        exact fun hc => hk hc.symm
      simp only [List.lookup, hk'] at h
      simp only [setAssoc, if_neg hk, List.lookup, hk']
      exact ih h

theorem lookup_map_keyed {β : Type} (l : List (String × β))
    (f : String × β → β) (k : String) :
    ((l.map (fun sp => (sp.1, f sp))).lookup k) =
      (l.lookup k).map (fun v => f (k, v)) := by
  induction l with
  | nil => simp
  | cons a t ih =>
    rcases a with ⟨a1, a2⟩
    by_cases hk : (k == a1) = true
    · have : k = a1 := by simpa using hk
      subst this
      simp [List.lookup]
    · have hk' : (k == a1) = false := by simpa using hk
      simp only [List.map, List.lookup, hk']
      exact ih

/-! ### Field bookkeeping for `update_position` -/

theorem update_position_capital (t : TradeExecution) (pf : Portfolio) :
    (update_position t pf).current_capital = (ledgerStep t pf).current_capital := by
  unfold update_position calculate_portfolio_value
  dsimp only
  split <;> rfl

theorem update_position_winning (t : TradeExecution) (pf : Portfolio) :
    (update_position t pf).winning_trades = (ledgerStep t pf).winning_trades := by
  unfold update_position calculate_portfolio_value
  dsimp only
  split <;> rfl

theorem update_position_trades (t : TradeExecution) (pf : Portfolio) :
    (update_position t pf).total_trades = (ledgerStep t pf).total_trades := by
  unfold update_position calculate_portfolio_value
  dsimp only
  split <;> rfl

theorem update_position_pnl (t : TradeExecution) (pf : Portfolio) :
    (update_position t pf).total_pnl = (ledgerStep t pf).total_pnl := by
  unfold update_position calculate_portfolio_value
  dsimp only
  split <;> rfl

theorem update_position_positions (t : TradeExecution) (pf : Portfolio) :
    (update_position t pf).positions =
      ((ledgerStep t pf).positions).map (markPosition [(t.symbol, t.price)]) := by
  unfold update_position calculate_portfolio_value
  dsimp only
  split <;> rfl

theorem markPositionVal_quantity (prices : List (String × ℚ)) (sp : String × Position) :
    (markPositionVal prices sp).quantity = sp.2.quantity := by
  unfold markPositionVal
  split <;> rfl

theorem markPositionVal_average_price (prices : List (String × ℚ)) (sp : String × Position) :
    (markPositionVal prices sp).average_price = sp.2.average_price := by
  unfold markPositionVal
  split <;> rfl

theorem markPositionVal_realized_pnl (prices : List (String × ℚ)) (sp : String × Position) :
    (markPositionVal prices sp).realized_pnl = sp.2.realized_pnl := by
  unfold markPositionVal
  split <;> rfl

theorem ledgerStep_buy_new (t : TradeExecution) (pf : Portfolio)
    (hside : t.side = OrderSide.buy)
    (h : pf.positions.lookup t.symbol = none) :
    (ledgerStep t pf).positions.lookup t.symbol =
      some { quantity := 0 + t.quantity
             average_price :=
               if 0 + t.quantity ≠ 0 then (0 * 0 + t.quantity * t.price) / (0 + t.quantity)
               else 0
             market_value := 0, unrealized_pnl := 0, realized_pnl := 0
             last_update_us := t.timestamp_us } ∧
    (ledgerStep t pf).current_capital =
      pf.current_capital - (t.quantity * t.price + t.commission) ∧
    (ledgerStep t pf).winning_trades = pf.winning_trades ∧
    (ledgerStep t pf).total_trades = pf.total_trades + 1 ∧
    (ledgerStep t pf).total_pnl = pf.total_pnl := by
  have hsome : ((pf.positions ++ [(t.symbol, freshPos t.timestamp_us)]).lookup t.symbol) =
      some (freshPos t.timestamp_us) := by
    rw [lookup_append_of_none _ _ _ h, lookup_cons_self]
  refine ⟨?_, ?_, ?_, ?_, ?_⟩ <;>
    (unfold ledgerStep
     simp only [h, hsome, Option.isSome_none, Bool.false_eq_true, if_false,
       Option.getD_some, hside]) <;>
    first
      | rfl
      | exact setAssoc_lookup_self _ _ _ (by rw [hsome]; rfl)

theorem ledgerStep_sell_new (t : TradeExecution) (pf : Portfolio)
    (hside : t.side = OrderSide.sell)
    (h : pf.positions.lookup t.symbol = none) :
    (ledgerStep t pf).positions.lookup t.symbol =
      some { quantity := 0 - t.quantity, average_price := 0, market_value := 0
             unrealized_pnl := 0, realized_pnl := 0 + (t.price - 0) * t.quantity
             last_update_us := t.timestamp_us } ∧
    (ledgerStep t pf).current_capital =
      pf.current_capital + (t.quantity * t.price - t.commission) ∧
    (ledgerStep t pf).winning_trades =
      pf.winning_trades + (if (t.price - 0) * t.quantity > 0 then 1 else 0) ∧
    (ledgerStep t pf).total_trades = pf.total_trades + 1 ∧
    (ledgerStep t pf).total_pnl = pf.total_pnl + (t.price - 0) * t.quantity := by
  have hsome : ((pf.positions ++ [(t.symbol, freshPos t.timestamp_us)]).lookup t.symbol) =
      some (freshPos t.timestamp_us) := by
    rw [lookup_append_of_none _ _ _ h, lookup_cons_self]
  refine ⟨?_, ?_, ?_, ?_, ?_⟩ <;>
    (unfold ledgerStep
     simp only [h, hsome, Option.isSome_none, Bool.false_eq_true, if_false,
       Option.getD_some, hside]) <;>
    first
      | rfl
      | exact setAssoc_lookup_self _ _ _ (by rw [hsome]; rfl)

theorem ledgerStep_sell_existing (t : TradeExecution) (pf : Portfolio)
    (hside : t.side = OrderSide.sell) (pos : Position)
    (h : pf.positions.lookup t.symbol = some pos) :
    (ledgerStep t pf).positions.lookup t.symbol =
      some { pos with
              quantity := pos.quantity - t.quantity
              realized_pnl := pos.realized_pnl + (t.price - pos.average_price) * t.quantity
              last_update_us := t.timestamp_us } ∧
    (ledgerStep t pf).current_capital =
      pf.current_capital + (t.quantity * t.price - t.commission) ∧
    (ledgerStep t pf).winning_trades =
      pf.winning_trades +
        (if (t.price - pos.average_price) * t.quantity > 0 then 1 else 0) ∧
    (ledgerStep t pf).total_trades = pf.total_trades + 1 ∧
    (ledgerStep t pf).total_pnl =
      pf.total_pnl + (t.price - pos.average_price) * t.quantity := by
  refine ⟨?_, ?_, ?_, ?_, ?_⟩ <;>
    (unfold ledgerStep
     simp only [h, Option.isSome_some, if_true, Option.getD_some, hside]) <;>
    exact setAssoc_lookup_self _ _ _ (by rw [h]; rfl)

set_option maxRecDepth 2000 in
/-- C10: a SELL on a symbol with no prior position is not rejected by the
ledger: it creates a position with average price 0 and quantity `−q`, credits
cash with `q·p − commission`, realizes `p·q` of PnL, and counts the trade as
winning exactly when `p·q > 0`; and for a portfolio with no positions the risk
gate passes a SELL exactly under the generic 5% position cap, with no check
that the position exists (naked shorts are allowed). -/
theorem claim_C10_naked_sell :
    (∀ (pf : Portfolio) (sym : String) (q p c : ℚ) (ts : ℤ),
      pf.positions.lookup sym = none →
      (((update_position ⟨sym, OrderSide.sell, q, p, ts, c⟩ pf).positions.lookup sym).map
          Position.quantity = some (-q) ∧
       ((update_position ⟨sym, OrderSide.sell, q, p, ts, c⟩ pf).positions.lookup sym).map
          Position.average_price = some 0 ∧
       ((update_position ⟨sym, OrderSide.sell, q, p, ts, c⟩ pf).positions.lookup sym).map
          Position.realized_pnl = some (p * q) ∧
       (update_position ⟨sym, OrderSide.sell, q, p, ts, c⟩ pf).current_capital =
          pf.current_capital + (q * p - c) ∧
       (update_position ⟨sym, OrderSide.sell, q, p, ts, c⟩ pf).winning_trades =
          pf.winning_trades + (if 0 < p * q then 1 else 0) ∧
       (update_position ⟨sym, OrderSide.sell, q, p, ts, c⟩ pf).total_trades =
          pf.total_trades + 1)) ∧
    (∀ (pf : Portfolio) (o : Order) (P : ℚ), pf.positions = [] →
      o.side = OrderSide.sell →
      ((check_risk_limits o P pf).1 = true ↔
        o.quantity * P / max pf.current_capital 1 ≤ 1/20)) := by
  constructor
  · intro pf sym q p c ts h
    have hL := ledgerStep_sell_new ⟨sym, OrderSide.sell, q, p, ts, c⟩ pf rfl h
    have hpos := update_position_positions ⟨sym, OrderSide.sell, q, p, ts, c⟩ pf
    have hlook : ((update_position ⟨sym, OrderSide.sell, q, p, ts, c⟩ pf).positions.lookup sym) =
        some (markPositionVal [(sym, p)]
          (sym, { quantity := 0 - q, average_price := 0, market_value := 0
                  unrealized_pnl := 0, realized_pnl := 0 + (p - 0) * q
                  last_update_us := ts })) := by
      rw [hpos]
      show ((((ledgerStep ⟨sym, OrderSide.sell, q, p, ts, c⟩ pf).positions).map
        (fun sp => (sp.1, markPositionVal [(sym, p)] sp))).lookup sym) = _
      rw [lookup_map_keyed, hL.1]
      rfl
    refine ⟨?_, ?_, ?_, ?_, ?_, ?_⟩
    · rw [hlook]
      simp only [Option.map_some', markPositionVal_quantity, Option.some.injEq]
      ring
    · rw [hlook]
      simp only [Option.map_some', markPositionVal_average_price]
    · rw [hlook]
      simp only [Option.map_some', markPositionVal_realized_pnl, Option.some.injEq]
      ring
    · rw [update_position_capital, hL.2.1]
    · rw [update_position_winning, hL.2.2.1]
      congr 1
      exact if_congr (by rw [sub_zero]) rfl rfl
    · rw [update_position_trades, hL.2.2.2.1]
  · intro pf o P hpos hside
    simp only [check_risk_limits, hpos, List.map_nil, List.sum_nil, add_zero, zero_add]
    split_ifs with h1 h2 h3
    · exact iff_of_false (by simp) (not_le.mpr h1)
    · exfalso
      have h1' := not_lt.mp h1
      rw [gt_iff_lt] at h2
      linarith
    · exfalso
      rw [hside] at h3
      exact OrderSide.noConfusion h3.1
    · exact iff_of_true rfl (not_lt.mp h1)

/-- C4: a BUY of `q` at `p1` followed by a SELL of `q` at `p2` on a previously
unheld symbol realizes `q·(p2 − p1)` of PnL (commissions do not enter the PnL),
the BUY debits `q·p1 + commission`, the SELL credits `q·p2 − commission`, and
the SELL increments the win counter exactly when the realized PnL is
positive. -/
theorem claim_C4_round_trip (pf : Portfolio) (sym : String) (q p1 p2 c1 c2 : ℚ)
    (ts1 ts2 : ℤ) (h : pf.positions.lookup sym = none) :
    (update_position ⟨sym, OrderSide.buy, q, p1, ts1, c1⟩ pf).current_capital =
      pf.current_capital - (q * p1 + c1) ∧
    (update_position ⟨sym, OrderSide.sell, q, p2, ts2, c2⟩
        (update_position ⟨sym, OrderSide.buy, q, p1, ts1, c1⟩ pf)).current_capital =
      (update_position ⟨sym, OrderSide.buy, q, p1, ts1, c1⟩ pf).current_capital +
        (q * p2 - c2) ∧
    (update_position ⟨sym, OrderSide.sell, q, p2, ts2, c2⟩
        (update_position ⟨sym, OrderSide.buy, q, p1, ts1, c1⟩ pf)).total_pnl =
      pf.total_pnl + q * (p2 - p1) ∧
    ((update_position ⟨sym, OrderSide.sell, q, p2, ts2, c2⟩
        (update_position ⟨sym, OrderSide.buy, q, p1, ts1, c1⟩ pf)).positions.lookup
          sym).map Position.realized_pnl = some (q * (p2 - p1)) ∧
    (update_position ⟨sym, OrderSide.sell, q, p2, ts2, c2⟩
        (update_position ⟨sym, OrderSide.buy, q, p1, ts1, c1⟩ pf)).winning_trades =
      pf.winning_trades + (if 0 < q * (p2 - p1) then 1 else 0) ∧
    (update_position ⟨sym, OrderSide.sell, q, p2, ts2, c2⟩
        (update_position ⟨sym, OrderSide.buy, q, p1, ts1, c1⟩ pf)).total_trades =
      pf.total_trades + 2 := by
  have hLbuy := ledgerStep_buy_new ⟨sym, OrderSide.buy, q, p1, ts1, c1⟩ pf rfl h
  have hlook1 : ((update_position ⟨sym, OrderSide.buy, q, p1, ts1, c1⟩ pf).positions.lookup
      sym) = some (markPositionVal [(sym, p1)]
        (sym, { quantity := 0 + q
                average_price :=
                  if 0 + q ≠ 0 then (0 * 0 + q * p1) / (0 + q) else 0
                market_value := 0, unrealized_pnl := 0, realized_pnl := 0
                last_update_us := ts1 })) := by
    rw [update_position_positions]
    show ((((ledgerStep ⟨sym, OrderSide.buy, q, p1, ts1, c1⟩ pf).positions).map
      (fun sp => (sp.1, markPositionVal [(sym, p1)] sp))).lookup sym) = _
    rw [lookup_map_keyed, hLbuy.1]
    rfl
  have hsell := ledgerStep_sell_existing ⟨sym, OrderSide.sell, q, p2, ts2, c2⟩
    (update_position ⟨sym, OrderSide.buy, q, p1, ts1, c1⟩ pf) rfl _ hlook1
  have havg : (markPositionVal [(sym, p1)]
      (sym, { quantity := 0 + q
              average_price := if 0 + q ≠ 0 then (0 * 0 + q * p1) / (0 + q) else 0
              market_value := 0, unrealized_pnl := 0, realized_pnl := 0
              last_update_us := ts1 })).average_price =
      (if 0 + q ≠ 0 then (0 * 0 + q * p1) / (0 + q) else 0) :=
    markPositionVal_average_price _ _
  have hreal0 : (markPositionVal [(sym, p1)]
      (sym, { quantity := 0 + q
              average_price := if 0 + q ≠ 0 then (0 * 0 + q * p1) / (0 + q) else 0
              market_value := 0, unrealized_pnl := 0, realized_pnl := 0
              last_update_us := ts1 })).realized_pnl = 0 :=
    markPositionVal_realized_pnl _ _
  have key : (p2 - (markPositionVal [(sym, p1)]
      (sym, { quantity := 0 + q
              average_price := if 0 + q ≠ 0 then (0 * 0 + q * p1) / (0 + q) else 0
              market_value := 0, unrealized_pnl := 0, realized_pnl := 0
              last_update_us := ts1 })).average_price) * q = q * (p2 - p1) := by
    rw [havg]
    by_cases hq : q = 0
    · subst hq; simp
    · rw [if_pos (by simpa using hq)]
      field_simp
      ring
  refine ⟨?_, ?_, ?_, ?_, ?_, ?_⟩
  · rw [update_position_capital, hLbuy.2.1]
  · rw [update_position_capital, hsell.2.1]
  · rw [update_position_pnl, hsell.2.2.2.2, update_position_pnl, hLbuy.2.2.2.2]
    show pf.total_pnl + (p2 - (markPositionVal [(sym, p1)]
      (sym, { quantity := 0 + q
              average_price := if 0 + q ≠ 0 then (0 * 0 + q * p1) / (0 + q) else 0
              market_value := 0, unrealized_pnl := 0, realized_pnl := 0
              last_update_us := ts1 })).average_price) * q = pf.total_pnl + q * (p2 - p1)
    rw [key]
  · have hlook2 : ((update_position ⟨sym, OrderSide.sell, q, p2, ts2, c2⟩
        (update_position ⟨sym, OrderSide.buy, q, p1, ts1, c1⟩ pf)).positions.lookup
          sym) = some (markPositionVal [(sym, p2)] (sym,
          { markPositionVal [(sym, p1)]
              (sym, { quantity := 0 + q
                      average_price :=
                        if 0 + q ≠ 0 then (0 * 0 + q * p1) / (0 + q) else 0
                      market_value := 0, unrealized_pnl := 0, realized_pnl := 0
                      last_update_us := ts1 }) with
            quantity := (markPositionVal [(sym, p1)]
              (sym, { quantity := 0 + q
                      average_price :=
                        if 0 + q ≠ 0 then (0 * 0 + q * p1) / (0 + q) else 0
                      market_value := 0, unrealized_pnl := 0, realized_pnl := 0
                      last_update_us := ts1 })).quantity - q
            realized_pnl := (markPositionVal [(sym, p1)]
              (sym, { quantity := 0 + q
                      average_price :=
                        if 0 + q ≠ 0 then (0 * 0 + q * p1) / (0 + q) else 0
                      market_value := 0, unrealized_pnl := 0, realized_pnl := 0
                      last_update_us := ts1 })).realized_pnl +
              (p2 - (markPositionVal [(sym, p1)]
                (sym, { quantity := 0 + q
                        average_price :=
                          if 0 + q ≠ 0 then (0 * 0 + q * p1) / (0 + q) else 0
                        market_value := 0, unrealized_pnl := 0, realized_pnl := 0
                        last_update_us := ts1 })).average_price) * q
            last_update_us := ts2 })) := by
      rw [update_position_positions]
      show ((((ledgerStep ⟨sym, OrderSide.sell, q, p2, ts2, c2⟩
        (update_position ⟨sym, OrderSide.buy, q, p1, ts1, c1⟩ pf)).positions).map
        (fun sp => (sp.1, markPositionVal [(sym, p2)] sp))).lookup sym) = _
      rw [lookup_map_keyed, hsell.1]
      rfl
    rw [hlook2]
    simp only [Option.map_some', markPositionVal_realized_pnl, Option.some.injEq]
    rw [zero_add, key]
  · rw [update_position_winning, hsell.2.2.1, update_position_winning, hLbuy.2.2.1]
    congr 1
    refine if_congr ?_ rfl rfl
    rw [gt_iff_lt]
    show 0 < (p2 - (markPositionVal [(sym, p1)]
      (sym, { quantity := 0 + q
              average_price := if 0 + q ≠ 0 then (0 * 0 + q * p1) / (0 + q) else 0
              market_value := 0, unrealized_pnl := 0, realized_pnl := 0
              last_update_us := ts1 })).average_price) * q ↔ 0 < q * (p2 - p1)
    rw [key]
  · rw [update_position_trades, hsell.2.2.2.1, update_position_trades, hLbuy.2.2.2.1]

set_option maxRecDepth 10000 in
attribute [local semireducible] Rat.add Rat.sub Rat.mul Rat.inv in
/-- Witness for C4 at the spec's round-trip scenario (BUY 1000 at 1.10 with
commission 0.55, SELL 1000 at 1.105 with commission 0.5525). -/
theorem claim_C4_round_trip_witness :
    (Portfolio.init 1000000).positions.lookup "EURUSD" = none ∧
    (update_position ⟨"EURUSD", OrderSide.sell, 1000, 1105/1000, 1, 5525/10000⟩
        (update_position ⟨"EURUSD", OrderSide.buy, 1000, 11/10, 0, 55/100⟩
          (Portfolio.init 1000000))).total_pnl = 0 + 1000 * (1105/1000 - 11/10) := by
  exact ⟨rfl, (claim_C4_round_trip (Portfolio.init 1000000) "EURUSD" 1000 (11/10)
    (1105/1000) (55/100) (5525/10000) 0 1 rfl).2.2.1⟩

set_option maxRecDepth 4000 in
attribute [local semireducible] Rat.add Rat.sub Rat.mul Rat.inv in
/-- Witness for C10 at a concrete naked short. -/
theorem claim_C10_naked_sell_witness :
    ((Portfolio.init 1000000).positions.lookup "EURUSD" = none ∧
      (update_position ⟨"EURUSD", OrderSide.sell, 10, 2, 0, 0⟩
        (Portfolio.init 1000000)).current_capital = 1000000 + (10 * 2 - 0)) ∧
    ((Portfolio.init 1000000).positions = [] ∧
      ((check_risk_limits
          { order_id := "o", symbol := "EURUSD", side := OrderSide.sell
            order_type := OrderTy.market, quantity := 10, price := none
            risk_score := 0 } 2 (Portfolio.init 1000000)).1 = true ↔
        (10 : ℚ) * 2 / max (Portfolio.init 1000000).current_capital 1 ≤ 1/20)) := by
  constructor
  · exact ⟨rfl, (claim_C10_naked_sell.1 (Portfolio.init 1000000) "EURUSD" 10 2 0 0
      rfl).2.2.2.1⟩
  · exact ⟨rfl, claim_C10_naked_sell.2 (Portfolio.init 1000000) _ 2 rfl rfl⟩

/-! ### Lemmas for the single-symbol portfolio-value recomputation (C1) -/

theorem sum_markValue_of_not_mem (t : List (String × Position)) (sym : String) (p : ℚ)
    (hnm : ∀ sp ∈ t, sp.1 ≠ sym) :
    (t.map (markValue [(sym, p)])).sum = 0 := by
  induction t with
  | nil => rfl
  | cons a t ih =>
    rcases a with ⟨a1, a2⟩
    have ha : a1 ≠ sym := hnm (a1, a2) (List.mem_cons_self _ _)
    have ha' : (a1 == sym) = false := by simpa using ha
    simp only [List.map_cons, List.sum_cons, markValue, List.lookup, ha']
    rw [ih (fun sp hsp => hnm sp (List.mem_cons_of_mem _ hsp))]
    simp

theorem lookup_none_of_not_mem {β : Type} (l : List (String × β)) (k : String)
    (h : k ∉ l.map Prod.fst) : l.lookup k = none := by
  induction l with
  | nil => rfl
  | cons a t ih =>
    rcases a with ⟨a1, a2⟩
    simp only [List.map_cons, List.mem_cons, not_or] at h
    have ha : (k == a1) = false := by simpa using h.1
    simp only [List.lookup, ha]
    exact ih h.2

theorem not_mem_of_lookup_none {β : Type} (l : List (String × β)) (k : String)
    (h : l.lookup k = none) : k ∉ l.map Prod.fst := by
  induction l with
  | nil => simp
  | cons a t ih =>
    rcases a with ⟨a1, a2⟩
    by_cases hk : (k == a1) = true
    · simp [List.lookup, hk] at h
    · have hk' : (k == a1) = false := by simpa using hk
      simp only [List.lookup, hk'] at h
      simp only [List.map_cons, List.mem_cons, not_or]
      exact ⟨by simpa using hk, ih h⟩

theorem sum_markValue_singleton (l : List (String × Position)) (sym : String) (p : ℚ)
    (hnd : (l.map Prod.fst).Nodup) :
    (l.map (markValue [(sym, p)])).sum =
      ((l.lookup sym).map (fun pos => pos.quantity * p)).getD 0 := by
  induction l with
  | nil => rfl
  | cons a l ih =>
    rcases a with ⟨a1, a2⟩
    simp only [List.map_cons, List.nodup_cons] at hnd
    by_cases hk : a1 = sym
    · subst hk
      have hnm : ∀ sp ∈ l, sp.1 ≠ a1 := by
        intro sp hsp heq
        exact hnd.1 (heq ▸ List.mem_map_of_mem Prod.fst hsp)
      simp only [List.map_cons, List.sum_cons, markValue, List.lookup, beq_self_eq_true]
      rw [sum_markValue_of_not_mem l a1 p hnm]
      simp
    · have hk' : (a1 == sym) = false := by simpa using hk
      have hk'' : (sym == a1) = false := by
        simp only [beq_eq_false_iff_ne, ne_eq]
        exact fun hc => hk hc.symm
      simp only [List.map_cons, List.sum_cons, markValue, List.lookup, hk', hk'']
      rw [ih hnd.2]
      simp

theorem keys_setAssoc (l : List (String × Position)) (k : String) (v : Position) :
    (setAssoc l k v).map Prod.fst = l.map Prod.fst := by
  induction l with
  | nil => rfl
  | cons a l ih =>
    rcases a with ⟨a1, a2⟩
    by_cases hk : a1 = k
    · simp [setAssoc, hk]
    · simp only [setAssoc, if_neg hk, List.map_cons]
      rw [ih]

theorem ledgerStep_keys_nodup (t : TradeExecution) (pf : Portfolio)
    (hnd : (pf.positions.map Prod.fst).Nodup) :
    (((ledgerStep t pf).positions).map Prod.fst).Nodup := by
  have hbase : ∀ l0 : List (String × Position), (l0.map Prod.fst).Nodup →
      ∀ pos' : Position, ((setAssoc l0 t.symbol pos').map Prod.fst).Nodup := by
    intro l0 h0 pos'
    rw [keys_setAssoc]
    exact h0
  have hpos0 : (((if (pf.positions.lookup t.symbol).isSome then pf.positions
      else pf.positions ++ [(t.symbol, freshPos t.timestamp_us)]) :
        List (String × Position)).map Prod.fst).Nodup := by
    split
    · exact hnd
    · rename_i hnone
      rw [List.map_append]
      simp only [List.map_cons, List.map_nil]
      rw [List.nodup_append]
      refine ⟨hnd, List.nodup_singleton _, ?_⟩
      intro a ha hb
      simp only [List.mem_singleton] at hb
      subst hb
      have := not_mem_of_lookup_none pf.positions t.symbol
        (Option.not_isSome_iff_eq_none.mp hnone)
      exact this ha
  rcases t with ⟨sym, side, q, p, ts, c⟩
  cases side <;> exact hbase _ hpos0 _

set_option maxRecDepth 10000 in
attribute [local semireducible] Rat.add Rat.sub Rat.mul Rat.inv in
/-- C1, counterexample: with cash 1,000,000, BUY 100 "B" at 10 (position worth
1000), then BUY 50 "A" at 20.  The value recomputed by the second update is
999,000 — cash 998,000 plus only the traded symbol's 1000 — while the claim's
"cash plus all held symbols at their marks" is 1,000,000 (it also counts "B"'s
1000).  The phantom 0.1% drop is even recorded as drawdown. -/
theorem claim_C1_counterexample :
    recomputedValue ⟨"A", OrderSide.buy, 50, 20, 1, 0⟩
      (update_position ⟨"B", OrderSide.buy, 100, 10, 0, 0⟩ (Portfolio.init 1000000)) =
      999000 ∧
    claimRecomputedValue ⟨"A", OrderSide.buy, 50, 20, 1, 0⟩
      (update_position ⟨"B", OrderSide.buy, 100, 10, 0, 0⟩ (Portfolio.init 1000000)) =
      1000000 ∧
    (999000 : ℚ) ≠ 1000000 ∧
    (update_position ⟨"A", OrderSide.buy, 50, 20, 1, 0⟩
      (update_position ⟨"B", OrderSide.buy, 100, 10, 0, 0⟩
        (Portfolio.init 1000000))).max_drawdown = 1/1000 := by
  refine ⟨by decide, by decide, by decide, by decide⟩

/-- C1, amended: the portfolio value recomputed at the end of
`update_position` equals cash plus the traded symbol's quantity marked at the
executed price only; every other held symbol is skipped entirely (the
single-entry price dict passed to `calculate_portfolio_value` excludes them),
not marked at its last known price as the claim states. -/
theorem claim_C1_recomputed_value (pf : Portfolio) (t : TradeExecution)
    (hnd : (pf.positions.map Prod.fst).Nodup) :
    recomputedValue t pf =
      (ledgerStep t pf).current_capital +
        ((((ledgerStep t pf).positions.lookup t.symbol).map
          (fun pos => pos.quantity * t.price)).getD 0) := by
  unfold recomputedValue calculate_portfolio_value
  dsimp only
  rw [sum_markValue_singleton _ _ _ (ledgerStep_keys_nodup t pf hnd)]
  exact add_comm _ _

set_option maxRecDepth 10000 in
attribute [local semireducible] Rat.add Rat.sub Rat.mul Rat.inv in
/-- Witness for the amended C1 on the two-symbol scenario. -/
theorem claim_C1_recomputed_value_witness :
    (((update_position ⟨"B", OrderSide.buy, 100, 10, 0, 0⟩
        (Portfolio.init 1000000)).positions.map Prod.fst).Nodup) ∧
    recomputedValue ⟨"A", OrderSide.buy, 50, 20, 1, 0⟩
      (update_position ⟨"B", OrderSide.buy, 100, 10, 0, 0⟩ (Portfolio.init 1000000)) =
      (ledgerStep ⟨"A", OrderSide.buy, 50, 20, 1, 0⟩
        (update_position ⟨"B", OrderSide.buy, 100, 10, 0, 0⟩
          (Portfolio.init 1000000))).current_capital +
        ((((ledgerStep ⟨"A", OrderSide.buy, 50, 20, 1, 0⟩
          (update_position ⟨"B", OrderSide.buy, 100, 10, 0, 0⟩
            (Portfolio.init 1000000))).positions.lookup "A").map
          (fun pos => pos.quantity * 20)).getD 0) := by
  refine ⟨by decide, ?_⟩
  exact claim_C1_recomputed_value _ _ (by decide)

/-! ### Peak / drawdown lemmas (C8) -/

theorem ledgerStep_peak (t : TradeExecution) (pf : Portfolio) :
    (ledgerStep t pf).peak_portfolio_value = pf.peak_portfolio_value := by
  rcases t with ⟨sym, side, q, p, ts, c⟩
  cases side <;> rfl

theorem ledgerStep_maxdd (t : TradeExecution) (pf : Portfolio) :
    (ledgerStep t pf).max_drawdown = pf.max_drawdown := by
  rcases t with ⟨sym, side, q, p, ts, c⟩
  cases side <;> rfl

theorem update_position_peak (t : TradeExecution) (pf : Portfolio) :
    (update_position t pf).peak_portfolio_value =
      max pf.peak_portfolio_value (recomputedValue t pf) := by
  unfold update_position calculate_portfolio_value
  dsimp only
  rw [ledgerStep_peak]
  split
  · next h => exact (max_eq_right (le_of_lt h)).symm
  · next h => exact (max_eq_left (not_lt.mp h)).symm

theorem update_position_maxdd (t : TradeExecution) (pf : Portfolio) :
    (update_position t pf).max_drawdown =
      if recomputedValue t pf > pf.peak_portfolio_value then pf.max_drawdown
      else max pf.max_drawdown
        ((pf.peak_portfolio_value - recomputedValue t pf) /
          pf.peak_portfolio_value) := by
  unfold update_position calculate_portfolio_value
  dsimp only
  rw [ledgerStep_peak, ledgerStep_maxdd]
  split
  · next h =>
    rw [if_pos (show recomputedValue t pf > pf.peak_portfolio_value from h)]
  · next h =>
    rw [if_neg (show ¬recomputedValue t pf > pf.peak_portfolio_value from h)]
    rfl

theorem update_position_dd_fold (t : TradeExecution) (pf : Portfolio)
    (hpeak : 0 < pf.peak_portfolio_value) (hdd0 : 0 ≤ pf.max_drawdown) :
    (update_position t pf).max_drawdown = max pf.max_drawdown (ddStep t pf) := by
  rw [update_position_maxdd]
  unfold ddStep
  dsimp only
  split
  · next h =>
    rw [max_eq_right (le_of_lt h), sub_self, zero_div, max_eq_left hdd0]
  · next h =>
    rw [max_eq_left (not_lt.mp h)]

theorem ddStep_le_one (t : TradeExecution) (pf : Portfolio)
    (hpeak : 0 < pf.peak_portfolio_value) (hv : 0 ≤ recomputedValue t pf) :
    ddStep t pf ≤ 1 := by
  unfold ddStep
  dsimp only
  have hP : 0 < max pf.peak_portfolio_value (recomputedValue t pf) :=
    lt_of_lt_of_le hpeak (le_max_left _ _)
  rw [div_le_one hP]
  exact sub_le_self _ hv

/-- C8, amended: across every trade-update sequence the peak portfolio value
and the maximum drawdown are monotone non-decreasing, the maximum drawdown is
nonnegative and equals the running maximum over time of
`(peak − value)/peak` against the updated peak; but it lies in `[0, 1]` only
when every recomputed portfolio value stays nonnegative — an uncovered sell
with large notional drives it above 1 (see the counterexample). -/
theorem claim_C8_drawdown (pf : Portfolio) (ts : List TradeExecution)
    (hpeak : 0 < pf.peak_portfolio_value) (hdd0 : 0 ≤ pf.max_drawdown) :
    pf.peak_portfolio_value ≤ (applyTrades pf ts).peak_portfolio_value ∧
    pf.max_drawdown ≤ (applyTrades pf ts).max_drawdown ∧
    0 ≤ (applyTrades pf ts).max_drawdown ∧
    (applyTrades pf ts).max_drawdown = (ddTrace pf ts).foldl max pf.max_drawdown ∧
    ((∀ v ∈ valueTrace pf ts, 0 ≤ v) → pf.max_drawdown ≤ 1 →
      (applyTrades pf ts).max_drawdown ≤ 1) := by
  induction ts generalizing pf with
  | nil =>
    exact ⟨le_refl _, le_refl _, hdd0, rfl, fun _ h1 => h1⟩
  | cons t ts ih =>
    have hpeak' : 0 < (update_position t pf).peak_portfolio_value := by
      rw [update_position_peak]
      exact lt_of_lt_of_le hpeak (le_max_left _ _)
    have hdd0' : 0 ≤ (update_position t pf).max_drawdown := by
      rw [update_position_maxdd]
      split
      · exact hdd0
      · exact le_trans hdd0 (le_max_left _ _)
    have happ : applyTrades pf (t :: ts) = applyTrades (update_position t pf) ts := rfl
    have hp : pf.peak_portfolio_value ≤ (update_position t pf).peak_portfolio_value := by
      rw [update_position_peak]
      exact le_max_left _ _
    have hd : pf.max_drawdown ≤ (update_position t pf).max_drawdown := by
      rw [update_position_maxdd]
      split
      · exact le_refl _
      · exact le_max_left _ _
    have ih' := ih (update_position t pf) hpeak' hdd0'
    refine ⟨?_, ?_, ?_, ?_, ?_⟩
    · rw [happ]
      exact le_trans hp ih'.1
    · rw [happ]
      exact le_trans hd ih'.2.1
    · rw [happ]
      exact ih'.2.2.1
    · rw [happ]
      have htr : ddTrace pf (t :: ts) =
          ddStep t pf :: ddTrace (update_position t pf) ts := rfl
      rw [htr, List.foldl_cons, ← update_position_dd_fold t pf hpeak hdd0]
      exact ih'.2.2.2.1
    · intro hvals h1
      have hvtr : valueTrace pf (t :: ts) =
          recomputedValue t pf :: valueTrace (update_position t pf) ts := rfl
      rw [hvtr] at hvals
      have hv0 : 0 ≤ recomputedValue t pf := hvals _ (List.mem_cons_self _ _)
      have hdd1 : (update_position t pf).max_drawdown ≤ 1 := by
        rw [update_position_dd_fold t pf hpeak hdd0]
        exact max_le h1 (ddStep_le_one t pf hpeak hv0)
      rw [happ]
      exact ih'.2.2.2.2 (fun v hv => hvals v (List.mem_cons_of_mem _ hv)) hdd1

set_option maxRecDepth 10000 in
attribute [local semireducible] Rat.add Rat.sub Rat.mul Rat.inv in
/-- C8, counterexample: a single uncovered SELL of 10^10 units at price 1 with
the engine's 5-bp commission (5·10^6) drives the recomputed portfolio value to
−4·10^6, and `max_drawdown` becomes 5, outside `[0, 1]`. -/
theorem claim_C8_counterexample :
    (applyTrades (Portfolio.init 1000000)
      [⟨"X", OrderSide.sell, 10000000000, 1, 0, 5000000⟩]).max_drawdown = 5 ∧
    ¬((applyTrades (Portfolio.init 1000000)
      [⟨"X", OrderSide.sell, 10000000000, 1, 0, 5000000⟩]).max_drawdown ≤ 1) := by
  refine ⟨by decide, by decide⟩

/-- Witness for the amended C8 on a benign one-trade sequence. -/
theorem claim_C8_drawdown_witness :
    0 < (Portfolio.init 1000000).peak_portfolio_value ∧
    0 ≤ (Portfolio.init 1000000).max_drawdown ∧
    (Portfolio.init 1000000).peak_portfolio_value ≤
      (applyTrades (Portfolio.init 1000000)
        [⟨"B", OrderSide.buy, 100, 10, 0, 0⟩]).peak_portfolio_value := by
  refine ⟨by norm_num [Portfolio.init], by norm_num [Portfolio.init], ?_⟩
  exact (claim_C8_drawdown (Portfolio.init 1000000) _
    (by norm_num [Portfolio.init]) (by norm_num [Portfolio.init])).1

/-- C2: the real-time box-counting fractal dimension always lies in
`[1.0, 2.0]`, and equals exactly `1.0` whenever the window is shorter than 10,
or flat (`max − min = 0`), or fewer than 2 usable box sizes remain, or the
least-squares fit is near-singular (`|denom| < 1e-10`). -/
theorem claim_C2_box_counting (P : List ℚ) :
    (1 ≤ fast_box_counting P ∧ fast_box_counting P ≤ 2) ∧
    ((P.length < 10 ∨ maxQ P - minQ P = 0 ∨ (usablePairs P).length < 2 ∨
        |fbcDenom P| < 1 / 10 ^ 10) → fast_box_counting P = 1) := by
  constructor
  · unfold fast_box_counting
    split_ifs with h1 h2 h3 h4
    · exact ⟨le_refl 1, by norm_num⟩
    · exact ⟨le_refl 1, by norm_num⟩
    · exact ⟨le_refl 1, by norm_num⟩
    · exact ⟨le_refl 1, by norm_num⟩
    · exact ⟨le_max_left _ _, max_le (by norm_num) (min_le_left _ _)⟩
  · intro h
    unfold fast_box_counting
    split_ifs with h1 h2 h3 h4
    · rfl
    · rfl
    · rfl
    · rfl
    · rcases h with h | h | h | h
      · exact absurd h h1
      · exact absurd h h2
      · exact absurd h h3
      · exact absurd h h4

set_option maxRecDepth 4000 in
attribute [local semireducible] Rat.add Rat.sub Rat.mul Rat.inv in
/-- Witness for C2 on a flat 10-price window. -/
theorem claim_C2_box_counting_witness :
    (maxQ (List.replicate 10 (5:ℚ)) - minQ (List.replicate 10 (5:ℚ)) = 0) ∧
    fast_box_counting (List.replicate 10 (5:ℚ)) = 1 := by
  have hrange : maxQ (List.replicate 10 (5:ℚ)) - minQ (List.replicate 10 (5:ℚ)) = 0 := by
    decide
  exact ⟨hrange, (claim_C2_box_counting _).2 (Or.inr (Or.inl hrange))⟩

/-! ### Evaluating the kernel on the concrete alternating window (C9) -/

theorem log_one_div_one : Real.log (1 / ((1:ℕ):ℝ)) = 0 := by
  norm_num

theorem log_one_div_two : Real.log (1 / ((2:ℕ):ℝ)) = -Real.log 2 := by
  rw [one_div, Real.log_inv]
  norm_num

theorem log_one_div_four : Real.log (1 / ((4:ℕ):ℝ)) = -(2 * Real.log 2) := by
  rw [one_div, Real.log_inv, show ((4:ℕ):ℝ) = 2 ^ 2 by norm_num, Real.log_pow]
  norm_num

theorem log_one_div_eight : Real.log (1 / ((8:ℕ):ℝ)) = -(3 * Real.log 2) := by
  rw [one_div, Real.log_inv, show ((8:ℕ):ℝ) = 2 ^ 3 by norm_num, Real.log_pow]
  norm_num

set_option maxRecDepth 40000 in
attribute [local semireducible] Rat.add Rat.sub Rat.mul Rat.inv in
theorem usablePairs_w50 : usablePairs (pricesOf w50) = [(1, 49), (2, 49), (4, 25), (8, 13)] := by
  decide

theorem log_two_pos' : (0:ℝ) < Real.log 2 :=
  lt_trans (by norm_num) Real.log_two_gt_d9

theorem key_log_ineq :
    4 * Real.log 49 - Real.log 25 - 3 * Real.log 13 ≤ 10 * Real.log 2 := by
  have hfact : Real.log ((49:ℝ) ^ 4) ≤ Real.log ((2:ℝ) ^ 10 * (25 * 13 ^ 3)) := by
    apply (Real.log_le_log_iff (by positivity) (by positivity)).mpr
    norm_num
  rw [Real.log_pow, Real.log_mul (by positivity) (by positivity),
    Real.log_mul (by positivity) (by positivity), Real.log_pow, Real.log_pow] at hfact
  push_cast at hfact
  linarith

theorem fbcDenom_w50 : fbcDenom (pricesOf w50) = 20 * Real.log 2 ^ 2 := by
  unfold fbcDenom
  rw [usablePairs_w50]
  simp only [fbcSumX, fbcSumXX, List.map_cons, List.map_nil, List.sum_cons,
    List.sum_nil, List.length_cons, List.length_nil, log_one_div_one,
    log_one_div_two, log_one_div_four, log_one_div_eight]
  push_cast
  ring

theorem fbcSlope_w50_le_one : fbcSlope (pricesOf w50) ≤ 1 := by
  unfold fbcSlope fbcDenom
  rw [usablePairs_w50]
  simp only [fbcSumX, fbcSumXX, fbcSumY, fbcSumXY, List.map_cons, List.map_nil,
    List.sum_cons, List.sum_nil, List.length_cons, List.length_nil,
    log_one_div_one, log_one_div_two, log_one_div_four, log_one_div_eight]
  push_cast
  have hL := log_two_pos'
  have hkey := key_log_ineq
  rw [div_le_one (by nlinarith)]
  nlinarith [mul_le_mul_of_nonneg_left hkey (le_of_lt hL)]

set_option maxRecDepth 40000 in
attribute [local semireducible] Rat.add Rat.sub Rat.mul Rat.inv in
theorem fbc_w50 : fast_box_counting (pricesOf w50) = 1 := by
  unfold fast_box_counting
  rw [if_neg (show ¬((pricesOf w50).length < 10) by decide)]
  rw [if_neg (show ¬(maxQ (pricesOf w50) - minQ (pricesOf w50) = 0) by decide)]
  rw [if_neg (by rw [usablePairs_w50]; decide)]
  rw [if_neg (show ¬(|fbcDenom (pricesOf w50)| < 1 / 10 ^ 10) by
    rw [fbcDenom_w50]
    have hL := Real.log_two_gt_d9
    rw [abs_of_nonneg (by positivity), not_lt]
    nlinarith)]
  rw [max_eq_left (le_trans (min_le_right _ _) fbcSlope_w50_le_one)]

set_option maxRecDepth 40000 in
attribute [local semireducible] Rat.add Rat.sub Rat.mul Rat.inv in
theorem confidence_w50 :
    calculate_confidence (pricesOf w50) (fast_box_counting (pricesOf w50))
      (volsOf w50) = 16/25 := by
  rw [fbc_w50]
  unfold calculate_confidence
  dsimp only
  rw [show maxQ (pricesOf w50) = 51/2 by decide]
  rw [show minQ (pricesOf w50) = 49/2 by decide]
  rw [show meanQ (pricesOf w50) = 25 by decide]
  rw [show sampleVarQ (volsOf w50) = 0 by decide]
  rw [show meanQ (volsOf w50) = 1/100 by decide]
  rw [show (pricesOf w50).length = 50 by decide]
  rw [show |(1:ℝ) - 3/2| = 1/2 by rw [abs_of_nonpos (by norm_num)]; norm_num]
  rw [Rat.cast_zero, Real.sqrt_zero]
  rw [show (max ((1:ℚ)/100) (1/1000)) = 1/100 from max_eq_left (by norm_num)]
  rw [show (min (1:ℚ) ((51/2 - 49/2) / 25 * 20)) = 4/5 from min_eq_right (by norm_num)]
  rw [show (min (1:ℚ) ((((50:ℕ)):ℚ) / 50)) = 1 by norm_num]
  rw [show (1:ℝ) - (1/2)/(1/2) = 0 by norm_num]
  rw [show (min (1:ℝ) 0) = 0 from min_eq_right (by norm_num)]
  rw [max_self (0:ℝ)]
  rw [show (1:ℝ) - 0 / (((1:ℚ)/100 : ℚ) : ℝ) = 1 by norm_num]
  rw [min_self (1:ℝ)]
  rw [show (max (0:ℝ) 1) = 1 from max_eq_right (by norm_num)]
  push_cast
  rw [show (0:ℝ) * (3/10) + 4/5 * (3/10) + 1 * (2/10) + 1 * (2/10) = 16/25 by norm_num]
  rw [show (min (1:ℝ) (16/25)) = 16/25 from min_eq_right (by norm_num)]
  exact max_eq_right (by norm_num)

set_option maxRecDepth 40000 in
attribute [local semireducible] Rat.add Rat.sub Rat.mul Rat.inv in
theorem classify_w50 :
    classify_pattern (pricesOf w50) (volsOf w50)
      (fast_box_counting (pricesOf w50)) = "SIDEWAYS" := by
  rw [fbc_w50]
  unfold classify_pattern
  dsimp only
  rw [if_pos (show (1:ℝ) < 12/10 by norm_num)]
  rw [if_neg (show ¬(|(if (returnsOf (pricesOf w50)).length ≥ 10 then
    (lastN 10 (returnsOf (pricesOf w50))).sum else 0 : ℚ)| > 1/100) by decide)]

set_option maxRecDepth 40000 in
attribute [local semireducible] Rat.add Rat.sub Rat.mul Rat.inv in
/-- C9: the detector publishes no pattern whose computed confidence is below
its `min_pattern_strength = 0.6` gate, and the gate is strictly inside the
signal processor's 0.7 threshold: the concrete 50-tick window `w50` is emitted
with confidence 0.64 ∈ [0.6, 0.7) (such a pattern reaches the pattern topic
yet can never pass the 0.7 signal gate), while windows below 0.6 are silently
suppressed — a gate the spec does not state. -/
theorem claim_C9_confidence_gate :
    (∀ (sym : String) (buffer : List (ℤ × ℚ × ℚ)) (n : ℕ),
      calculate_confidence (pricesOf buffer) (fast_box_counting (pricesOf buffer))
        (volsOf buffer) < 6/10 →
      detect_pattern_in_window sym buffer n = none) ∧
    ((detect_pattern_in_window "EURUSD" w50 50).map FractalPattern.confidence =
        some (16/25) ∧ ((6:ℝ)/10 ≤ 16/25 ∧ ((16:ℝ)/25 < 7/10))) := by
  constructor
  · intro sym buffer n h
    unfold detect_pattern_in_window
    dsimp only
    split_ifs with h1 h2
    · rfl
    · rfl
    · rfl
  · have hne : ¬(classify_pattern (pricesOf w50) (volsOf w50)
        (fast_box_counting (pricesOf w50)) = "NO_PATTERN") := by
      rw [classify_w50]
      decide
    unfold detect_pattern_in_window
    dsimp only
    rw [if_neg (show ¬(w50.length < 50) by decide)]
    rw [if_neg hne]
    rw [confidence_w50]
    rw [if_neg (show ¬((16:ℝ)/25 < 6/10) by norm_num)]
    exact ⟨rfl, by norm_num, by norm_num⟩

set_option maxRecDepth 40000 in
attribute [local semireducible] Rat.add Rat.sub Rat.mul Rat.inv in
/-- Witness for C9 on the flat 20-tick window, whose confidence 0.28 is below
the 0.6 gate. -/
theorem claim_C9_confidence_gate_witness :
    calculate_confidence (pricesOf w20) (fast_box_counting (pricesOf w20))
      (volsOf w20) < 6/10 ∧
    detect_pattern_in_window "EURUSD" w20 20 = none := by
  have hfbc : fast_box_counting (pricesOf w20) = 1 := by
    unfold fast_box_counting
    rw [if_neg (show ¬((pricesOf w20).length < 10) by decide)]
    rw [if_pos (show maxQ (pricesOf w20) - minQ (pricesOf w20) = 0 by decide)]
  have hconf : calculate_confidence (pricesOf w20) (fast_box_counting (pricesOf w20))
      (volsOf w20) < 6/10 := by
    rw [hfbc]
    unfold calculate_confidence
    dsimp only
    rw [show maxQ (pricesOf w20) = 1 by decide]
    rw [show minQ (pricesOf w20) = 1 by decide]
    rw [show meanQ (pricesOf w20) = 1 by decide]
    rw [show sampleVarQ (volsOf w20) = 0 by decide]
    rw [show meanQ (volsOf w20) = 1/100 by decide]
    rw [show (pricesOf w20).length = 20 by decide]
    rw [show |(1:ℝ) - 3/2| = 1/2 by rw [abs_of_nonpos (by norm_num)]; norm_num]
    rw [Rat.cast_zero, Real.sqrt_zero]
    rw [show (max ((1:ℚ)/100) (1/1000)) = 1/100 from max_eq_left (by norm_num)]
    rw [show (min (1:ℚ) (((1:ℚ) - 1) / 1 * 20)) = 0 by norm_num]
    rw [show (min (1:ℚ) ((((20:ℕ)):ℚ) / 50)) = 2/5 from min_eq_right (by norm_num)]
    rw [show (1:ℝ) - (1/2)/(1/2) = 0 by norm_num]
    rw [show (min (1:ℝ) 0) = 0 from min_eq_right (by norm_num)]
    rw [max_self (0:ℝ)]
    rw [show (1:ℝ) - 0 / (((1:ℚ)/100 : ℚ) : ℝ) = 1 by norm_num]
    rw [min_self (1:ℝ)]
    rw [show (max (0:ℝ) 1) = 1 from max_eq_right (by norm_num)]
    push_cast
    rw [show (0:ℝ) * (3/10) + 0 * (3/10) + 1 * (2/10) + 2/5 * (2/10) = 7/25 by norm_num]
    rw [show (min (1:ℝ) (7/25)) = 7/25 from min_eq_right (by norm_num)]
    rw [show (max (0:ℝ) (7/25)) = 7/25 from max_eq_right (by norm_num)]
    norm_num
  exact ⟨hconf, claim_C9_confidence_gate.1 "EURUSD" w20 20 hconf⟩

/-! ### Binary-heap lemmas for the execution intake queue (C7) -/

theorem hGet_set_self (l : List QEntry) (p : ℕ) (e : QEntry) (h : p < l.length) :
    hGet (l.set p e) p = e := by
  unfold hGet
  rw [List.getD_eq_getElem _ _ (by simpa using h), List.getElem_set_self]

theorem hGet_set_ne (l : List QEntry) (p : ℕ) (e : QEntry) (j : ℕ) (h : p ≠ j) :
    hGet (l.set p e) j = hGet l j := by
  unfold hGet
  by_cases hj : j < l.length
  · rw [List.getD_eq_getElem _ _ (by simpa using hj), List.getD_eq_getElem _ _ hj,
      List.getElem_set_ne h]
  · rw [List.getD_eq_default _ _ (by simpa using not_lt.mp hj),
      List.getD_eq_default _ _ (not_lt.mp hj)]

theorem hGet_mem (l : List QEntry) (i : ℕ) (h : i < l.length) : hGet l i ∈ l := by
  unfold hGet
  rw [List.getD_eq_getElem _ _ h]
  exact List.getElem_mem _

theorem vGet_self (l : List QEntry) (p : ℕ) (it : QEntry) : vGet l p it p = it := by
  unfold vGet
  rw [if_pos rfl]

theorem vGet_ne (l : List QEntry) (p : ℕ) (it : QEntry) (j : ℕ) (h : j ≠ p) :
    vGet l p it j = hGet l j := by
  unfold vGet
  rw [if_neg h]

theorem hGet_set (l : List QEntry) (p : ℕ) (e : QEntry) (hp : p < l.length) (j : ℕ) :
    hGet (l.set p e) j = vGet l p e j := by
  unfold vGet
  split_ifs with h
  · subst h; exact hGet_set_self l j e hp
  · exact hGet_set_ne l p e j (fun hh => h hh.symm)

theorem vGet_set (l : List QEntry) (p : ℕ) (e : QEntry) (hp : p < l.length)
    (q : ℕ) (it : QEntry) (j : ℕ) :
    vGet (l.set p e) q it j = if j = q then it else vGet l p e j := by
  unfold vGet
  split_ifs with h h2
  · rfl
  · subst h2; exact hGet_set_self l j e hp
  · exact hGet_set_ne l p e j (fun hh => h2 hh.symm)

theorem vGet_set_same (l : List QEntry) (p : ℕ) (e it : QEntry) (hp : p < l.length) (j : ℕ) :
    vGet (l.set p e) p it j = vGet l p it j := by
  rw [vGet_set l p e hp p it j]
  unfold vGet
  split_ifs <;> rfl

theorem hGet_append_left (l l2 : List QEntry) (j : ℕ) (h : j < l.length) :
    hGet (l ++ l2) j = hGet l j := by
  unfold hGet
  rw [List.getD_append l l2 (0, 0) j h]

theorem length_siftdownAux (s : ℕ) (e : QEntry) :
    ∀ (f : ℕ) (l : List QEntry) (p : ℕ) (l' : List QEntry),
      siftdownAux s e f l p = Except.ok l' → l'.length = l.length := by
  intro f
  induction f with
  | zero =>
    intro l p l' h
    unfold siftdownAux at h
    injection h with h
    rw [← h, List.length_set]
  | succ f ih =>
    intro l p l' h
    unfold siftdownAux at h
    dsimp only at h
    split_ifs at h with hsp heqp heqi hlt
    · injection h with h
      rw [← h, List.length_set]
    · rw [ih _ _ _ h, List.length_set]
    · injection h with h
      rw [← h, List.length_set]
    · injection h with h
      rw [← h, List.length_set]

theorem length_siftupAux (s : ℕ) (e : QEntry) :
    ∀ (f : ℕ) (l : List QEntry) (p : ℕ) (l' : List QEntry),
      siftupAux s e f l p = Except.ok l' → l'.length = l.length := by
  intro f
  induction f with
  | zero =>
    intro l p l' h
    unfold siftupAux siftdown at h
    rw [length_siftdownAux s e p _ p l' h, List.length_set]
  | succ f ih =>
    intro l p l' h
    unfold siftupAux at h
    dsimp only at h
    split_ifs at h with hc hr heqp heqi hlt
    · rw [ih _ _ _ h, List.length_set]
    · rw [ih _ _ _ h, List.length_set]
    · rw [ih _ _ _ h, List.length_set]
    · rw [ih _ _ _ h, List.length_set]
    · unfold siftdown at h
      rw [length_siftdownAux s e p _ p l' h, List.length_set]

theorem mem_siftdownAux (s : ℕ) (e : QEntry) :
    ∀ (f : ℕ) (l : List QEntry) (p : ℕ), p < l.length →
      ∀ (l' : List QEntry), siftdownAux s e f l p = Except.ok l' →
        ∀ x ∈ l', x ∈ l ∨ x = e := by
  intro f
  induction f with
  | zero =>
    intro l p _hp l' h x hx
    unfold siftdownAux at h
    injection h with h
    rw [← h] at hx
    exact List.mem_or_eq_of_mem_set hx
  | succ f ih =>
    intro l p hp l' h x hx
    unfold siftdownAux at h
    dsimp only at h
    split_ifs at h with hsp heqp heqi hlt
    · injection h with h
      rw [← h] at hx
      exact List.mem_or_eq_of_mem_set hx
    · have hpp : (p - 1) / 2 < l.length := by omega
      have := ih (l.set p (hGet l ((p - 1) / 2))) ((p - 1) / 2)
        (by rw [List.length_set]; omega) l' h x hx
      rcases this with hmem | he
      · rcases List.mem_or_eq_of_mem_set hmem with h1 | h1
        · exact Or.inl h1
        · exact Or.inl (h1 ▸ hGet_mem l _ hpp)
      · exact Or.inr he
    · injection h with h
      rw [← h] at hx
      exact List.mem_or_eq_of_mem_set hx
    · injection h with h
      rw [← h] at hx
      exact List.mem_or_eq_of_mem_set hx

theorem mem_siftupAux (s : ℕ) (e : QEntry) :
    ∀ (f : ℕ) (l : List QEntry) (p : ℕ), p < l.length →
      ∀ (l' : List QEntry), siftupAux s e f l p = Except.ok l' →
        ∀ x ∈ l', x ∈ l ∨ x = e := by
  intro f
  induction f with
  | zero =>
    intro l p hp l' h x hx
    unfold siftupAux siftdown at h
    have := mem_siftdownAux s e p (l.set p e) p
      (by rw [List.length_set]; exact hp) l' h x hx
    rcases this with hmem | he
    · rcases List.mem_or_eq_of_mem_set hmem with h1 | h1
      · exact Or.inl h1
      · exact Or.inr h1
    · exact Or.inr he
  | succ f ih =>
    intro l p hp l' h x hx
    unfold siftupAux at h
    dsimp only at h
    have hstep : ∀ cp, cp < l.length →
        siftupAux s e f (l.set p (hGet l cp)) cp = Except.ok l' → x ∈ l ∨ x = e := by
      intro cp hcpl hrec
      have := ih (l.set p (hGet l cp)) cp (by rw [List.length_set]; exact hcpl) l' hrec x hx
      rcases this with hmem | he
      · rcases List.mem_or_eq_of_mem_set hmem with h1 | h1
        · exact Or.inl h1
        · exact Or.inl (h1 ▸ hGet_mem l _ hcpl)
      · exact Or.inr he
    split_ifs at h with hc hr heqp heqi hlt
    · exact hstep _ hr h
    · exact hstep _ hc h
    · exact hstep _ hr h
    · exact hstep _ hc h
    · unfold siftdown at h
      have := mem_siftdownAux s e p (l.set p e) p
        (by rw [List.length_set]; exact hp) l' h x hx
      rcases this with hmem | he
      · rcases List.mem_or_eq_of_mem_set hmem with h1 | h1
        · exact Or.inl h1
        · exact Or.inr h1
      · exact Or.inr he

theorem hGet_zero_le (l : List QEntry) (hl : IsHeap l) :
    ∀ i, i < l.length → (hGet l 0).1 ≤ (hGet l i).1 := by
  intro i
  induction i using Nat.strong_induction_on with
  | _ i ih =>
    intro hi
    rcases Nat.eq_zero_or_pos i with h0 | h0
    · subst h0; exact le_refl _
    · have hpar : (i - 1) / 2 < i := by omega
      exact le_trans (ih _ hpar (lt_trans hpar hi))
        (hl i (List.mem_range.mpr hi) h0)

theorem root_min (l : List QEntry) (hl : IsHeap l) :
    ∀ x ∈ l, (hGet l 0).1 ≤ x.1 := by
  intro x hx
  rcases List.mem_iff_getElem.mp hx with ⟨i, hi, rfl⟩
  have := hGet_zero_le l hl i hi
  rwa [show hGet l i = l[i] from List.getD_eq_getElem _ _ hi] at this

theorem isHeap_nil : IsHeap [] := by
  intro i hi _
  rw [List.mem_range] at hi
  exact absurd hi (Nat.not_lt_zero i)

theorem siftdownAux_isHeap (item : QEntry) :
    ∀ (f : ℕ) (l : List QEntry) (p : ℕ), p < l.length → p ≤ f →
      (∀ c, c < l.length → 0 < c → c ≠ p →
        (vGet l p item ((c - 1) / 2)).1 ≤ (vGet l p item c).1) →
      (0 < p → ∀ c, c < l.length → (c - 1) / 2 = p →
        (hGet l ((p - 1) / 2)).1 ≤ (hGet l c).1) →
      ∀ l', siftdownAux 0 item f l p = Except.ok l' → IsHeap l' := by
  intro f
  induction f with
  | zero =>
    intro l p hp hf h1 _h2 l' h
    have hp0 : p = 0 := Nat.le_zero.mp hf
    subst hp0
    unfold siftdownAux at h
    injection h with h
    subst h
    intro i hi hi0
    rw [List.mem_range, List.length_set] at hi
    rw [hGet_set l 0 item hp ((i - 1) / 2), hGet_set l 0 item hp i]
    exact h1 i hi hi0 (by omega)
  | succ f ih =>
    intro l p hp hf h1 h2 l' h
    unfold siftdownAux at h
    dsimp only at h
    have hexit : (0 < p → (hGet l ((p - 1) / 2)).1 ≤ item.1) →
        (Except.ok (l.set p item) : Except Unit (List QEntry)) = Except.ok l' →
        IsHeap l' := by
      intro hle hh
      injection hh with hh
      subst hh
      intro i hi hi0
      rw [List.mem_range, List.length_set] at hi
      rw [hGet_set l p item hp ((i - 1) / 2), hGet_set l p item hp i]
      by_cases hip : i = p
      · subst hip
        rw [vGet_self, vGet_ne l i item ((i - 1) / 2) (by omega)]
        exact hle hi0
      · exact h1 i hi hi0 hip
    split_ifs at h with hsp heqp heqi hlt
    · exact hexit (fun _ => le_of_eq heqp.symm) h
    · refine ih (l.set p (hGet l ((p - 1) / 2))) ((p - 1) / 2) ?_ ?_ ?_ ?_ l' h
      · rw [List.length_set]; omega
      · omega
      · intro c hc hc0 hcne
        rw [List.length_set] at hc
        rw [vGet_set l p (hGet l ((p - 1) / 2)) hp ((p - 1) / 2) item ((c - 1) / 2),
            vGet_set l p (hGet l ((p - 1) / 2)) hp ((p - 1) / 2) item c]
        by_cases hcp : c = p
        · subst hcp
          rw [if_neg hcne, if_pos rfl, vGet_self]
          exact le_of_lt hlt
        · rw [if_neg hcne, vGet_ne l p _ c hcp]
          by_cases hpar : (c - 1) / 2 = (p - 1) / 2
          · rw [if_pos hpar]
            have hedge := h1 c hc hc0 hcp
            rw [vGet_ne l p item c hcp, hpar,
                vGet_ne l p item ((p - 1) / 2) (by omega)] at hedge
            exact le_trans (le_of_lt hlt) hedge
          · rw [if_neg hpar]
            by_cases hpc : (c - 1) / 2 = p
            · rw [hpc, vGet_self]
              exact h2 hsp c hc hpc
            · rw [vGet_ne l p _ _ hpc]
              have hedge := h1 c hc hc0 hcp
              rw [vGet_ne l p item c hcp, vGet_ne l p item ((c - 1) / 2) hpc] at hedge
              exact hedge
      · intro hpp0 c hc hcpar
        rw [List.length_set] at hc
        have hbase :
            (hGet l (((p - 1) / 2 - 1) / 2)).1 ≤ (hGet l ((p - 1) / 2)).1 := by
          have hedge := h1 ((p - 1) / 2) (by omega) hpp0 (by omega)
          rw [vGet_ne l p item ((p - 1) / 2) (by omega),
              vGet_ne l p item (((p - 1) / 2 - 1) / 2) (by omega)] at hedge
          exact hedge
        rw [hGet_set_ne l p _ (((p - 1) / 2 - 1) / 2) (by omega)]
        by_cases hcp : c = p
        · subst hcp
          rw [hGet_set_self l c _ hp]
          exact hbase
        · rw [hGet_set_ne l p _ c (fun hh => hcp hh.symm)]
          have hedge := h1 c hc (by omega) hcp
          rw [vGet_ne l p item c hcp, vGet_ne l p item ((c - 1) / 2) (by omega),
              hcpar] at hedge
          exact le_trans hbase hedge
    · exact hexit (fun _ => Nat.le_of_not_lt hlt) h
    · exact hexit (fun h0 => absurd h0 (by omega)) h

theorem siftupAux_isHeap (item : QEntry) :
    ∀ (f : ℕ) (l : List QEntry) (p : ℕ), p < l.length → l.length - p ≤ f →
      (∀ c, c < l.length → 0 < c → (c - 1) / 2 ≠ p →
        (hGet l ((c - 1) / 2)).1 ≤ (hGet l c).1) →
      (0 < p → ∀ c, c < l.length → (c - 1) / 2 = p →
        (hGet l ((p - 1) / 2)).1 ≤ (hGet l c).1) →
      ∀ l', siftupAux 0 item f l p = Except.ok l' → IsHeap l' := by
  intro f
  induction f with
  | zero =>
    intro l p hp hf _h1 _h2 l' _h
    exact absurd hp (by omega)
  | succ f ih =>
    intro l p hp hf h1 h2 l' h
    unfold siftupAux at h
    dsimp only at h
    have hstep : ∀ cp, (cp = 2 * p + 1 ∨ cp = 2 * p + 1 + 1) → cp < l.length →
        (∀ c, c < l.length → 0 < c → (c - 1) / 2 = p → (hGet l cp).1 ≤ (hGet l c).1) →
        siftupAux 0 item f (l.set p (hGet l cp)) cp = Except.ok l' → IsHeap l' := by
      intro cp hcp hcpl hmin hrec
      refine ih (l.set p (hGet l cp)) cp ?_ ?_ ?_ ?_ l' hrec
      · rw [List.length_set]; exact hcpl
      · rw [List.length_set]; omega
      · intro c hcl hc0 hcne
        rw [List.length_set] at hcl
        by_cases hcpp : c = p
        · subst hcpp
          rw [hGet_set_self l c _ hp, hGet_set_ne l c _ ((c - 1) / 2) (by omega)]
          exact h2 hc0 cp hcpl (by omega)
        · rw [hGet_set_ne l p _ c (fun hh => hcpp hh.symm)]
          by_cases hpar : (c - 1) / 2 = p
          · rw [hpar, hGet_set_self l p _ hp]
            exact hmin c hcl hc0 hpar
          · rw [hGet_set_ne l p _ ((c - 1) / 2) (fun hh => hpar hh.symm)]
            exact h1 c hcl hc0 hpar
      · intro _ c hcl hcpar
        rw [List.length_set] at hcl
        have hne : c ≠ p := by omega
        have hp2 : (cp - 1) / 2 = p := by omega
        rw [hp2, hGet_set_self l p _ hp,
            hGet_set_ne l p _ c (fun hh => hne hh.symm)]
        have hedge := h1 c hcl (by omega) (by omega)
        rw [hcpar] at hedge
        exact hedge
    split_ifs at h with hc hr heqp heqi hlt
    · refine hstep (2 * p + 1 + 1) (Or.inr rfl) hr ?_ h
      intro c hcl hc0 hcpar
      have hcc : c = 2 * p + 1 ∨ c = 2 * p + 1 + 1 := by omega
      rcases hcc with hcl2 | hcr2
      · subst hcl2
        exact le_of_eq heqp.symm
      · subst hcr2
        exact le_refl _
    · refine hstep (2 * p + 1) (Or.inl rfl) hc ?_ h
      intro c hcl hc0 hcpar
      have hcc : c = 2 * p + 1 ∨ c = 2 * p + 1 + 1 := by omega
      rcases hcc with hcl2 | hcr2
      · subst hcl2
        exact le_refl _
      · subst hcr2
        exact le_of_lt hlt
    · refine hstep (2 * p + 1 + 1) (Or.inr rfl) hr ?_ h
      intro c hcl hc0 hcpar
      have hcc : c = 2 * p + 1 ∨ c = 2 * p + 1 + 1 := by omega
      rcases hcc with hcl2 | hcr2
      · subst hcl2
        exact Nat.le_of_not_lt hlt
      · subst hcr2
        exact le_refl _
    · refine hstep (2 * p + 1) (Or.inl rfl) hc ?_ h
      intro c hcl hc0 hcpar
      have hcc : c = 2 * p + 1 := by omega
      subst hcc
      exact le_refl _
    · unfold siftdown at h
      refine siftdownAux_isHeap item p (l.set p item) p ?_ (le_refl p) ?_ ?_ l' h
      · rw [List.length_set]; exact hp
      · intro c hcl hc0 hcne
        rw [List.length_set] at hcl
        rw [vGet_set_same l p item item hp ((c - 1) / 2),
            vGet_set_same l p item item hp c]
        by_cases hpar : (c - 1) / 2 = p
        · exact absurd hpar (by omega)
        · rw [vGet_ne l p item c hcne, vGet_ne l p item ((c - 1) / 2) hpar]
          exact h1 c hcl hc0 hpar
      · intro _ c hcl hcpar
        rw [List.length_set] at hcl
        exact absurd hcpar (by omega)

theorem heappush_isHeap (l : List QEntry) (hl : IsHeap l) (item : QEntry)
    (l' : List QEntry) (h : heappush l item = Except.ok l') : IsHeap l' := by
  unfold heappush siftdown at h
  refine siftdownAux_isHeap item l.length (l ++ [item]) l.length ?_ (le_refl _)
    ?_ ?_ l' h
  · rw [List.length_append, List.length_cons, List.length_nil]
    omega
  · intro c hc hc0 hcne
    rw [List.length_append, List.length_cons, List.length_nil] at hc
    have hcl : c < l.length := by omega
    rw [vGet_ne (l ++ [item]) l.length item c hcne,
        vGet_ne (l ++ [item]) l.length item ((c - 1) / 2) (by omega)]
    rw [hGet_append_left l [item] c hcl, hGet_append_left l [item] ((c - 1) / 2) (by omega)]
    exact hl c (List.mem_range.mpr hcl) hc0
  · intro hp0 c hcl hcp
    rw [List.length_append, List.length_cons, List.length_nil] at hcl
    exact absurd hcp (by omega)

theorem hGet_dropLast (l : List QEntry) (j : ℕ) (h : j < l.dropLast.length) :
    hGet l.dropLast j = hGet l j := by
  unfold hGet
  rw [List.getD_eq_getElem _ _ h,
      List.getD_eq_getElem _ _ (by rw [List.length_dropLast] at h; omega)]
  exact List.getElem_dropLast l j h

theorem getLastD_mem : ∀ (l : List QEntry) (d : QEntry), l ≠ [] → l.getLastD d ∈ l := by
  intro l
  induction l with
  | nil => intro d h; exact absurd rfl h
  | cons a t ih =>
    intro d _
    cases t with
    | nil => simp [List.getLastD]
    | cons b t2 =>
      have := ih a (by simp)
      exact List.mem_cons_of_mem a (by simp only [List.getLastD]; exact this)

theorem heappop_cons (l : List QEntry) (hl : IsHeap l) :
    ∀ e rest, heappop l = Except.ok (some (e, rest)) →
      e = hGet l 0 ∧ IsHeap rest ∧ rest.length + 1 = l.length ∧ ∀ x ∈ rest, x ∈ l := by
  intro e rest h
  cases l with
  | nil =>
    rw [show heappop [] = Except.ok none from rfl] at h
    injection h with h
    exact Option.noConfusion h
  | cons a t =>
    cases t with
    | nil =>
      rw [show heappop [a] = Except.ok (some (a, ([] : List QEntry))) from rfl,
          Except.ok.injEq, Option.some.injEq, Prod.mk.injEq] at h
      obtain ⟨he, hrest⟩ := h
      subst he
      subst hrest
      exact ⟨rfl, isHeap_nil, rfl, fun x hx => absurd hx (List.not_mem_nil x)⟩
    | cons b t2 =>
      have hdl : ((a :: b :: t2).dropLast).length = t2.length + 1 := by
        rw [List.length_dropLast]
        simp
      have hpop : heappop (a :: b :: t2) =
          match siftupAux 0 ((a :: b :: t2).getLastD (0, 0))
              ((a :: b :: t2).dropLast).length
              (((a :: b :: t2).dropLast).set 0 ((a :: b :: t2).getLastD (0, 0))) 0 with
          | Except.error err => Except.error err
          | Except.ok hout =>
            Except.ok (some (hGet ((a :: b :: t2).dropLast) 0, hout)) := rfl
      rw [hpop] at h
      split at h
      · exact Except.noConfusion h
      · rename_i hout hsift
        rw [Except.ok.injEq, Option.some.injEq, Prod.mk.injEq] at h
        obtain ⟨he, hrest⟩ := h
        subst hrest
        have hLlen : (((a :: b :: t2).dropLast).set 0
            ((a :: b :: t2).getLastD (0, 0))).length = t2.length + 1 := by
          rw [List.length_set, hdl]
        refine ⟨?_, ?_, ?_, ?_⟩
        · rw [← he]
          exact (hGet_dropLast (a :: b :: t2) 0 (by rw [hdl]; omega)).symm
        · refine siftupAux_isHeap ((a :: b :: t2).getLastD (0, 0))
            ((a :: b :: t2).dropLast).length
            (((a :: b :: t2).dropLast).set 0 ((a :: b :: t2).getLastD (0, 0))) 0
            ?_ ?_ ?_ ?_ hout hsift
          · rw [hLlen]; omega
          · rw [hLlen, hdl]; omega
          · intro c hc hc0 hpar
            rw [hLlen] at hc
            rw [hGet_set_ne _ 0 _ c (by omega), hGet_set_ne _ 0 _ ((c - 1) / 2) (by omega)]
            rw [hGet_dropLast (a :: b :: t2) c (by rw [hdl]; omega),
                hGet_dropLast (a :: b :: t2) ((c - 1) / 2) (by rw [hdl]; omega)]
            exact hl c (List.mem_range.mpr (by simp only [List.length_cons]; omega)) hc0
          · intro h0
            exact absurd h0 (lt_irrefl 0)
        · rw [length_siftupAux 0 ((a :: b :: t2).getLastD (0, 0))
              ((a :: b :: t2).dropLast).length _ 0 hout hsift, hLlen]
          simp
        · intro x hx
          have := mem_siftupAux 0 ((a :: b :: t2).getLastD (0, 0))
            ((a :: b :: t2).dropLast).length
            (((a :: b :: t2).dropLast).set 0 ((a :: b :: t2).getLastD (0, 0))) 0
            (by rw [hLlen]; omega) hout hsift x hx
          rcases this with hmem | hlast
          · rcases List.mem_or_eq_of_mem_set hmem with h1 | h1
            · exact List.dropLast_subset _ h1
            · exact h1 ▸ getLastD_mem (a :: b :: t2) (0, 0) (by simp)
          · exact hlast ▸ getLastD_mem (a :: b :: t2) (0, 0) (by simp)

theorem drainAux_succ (f : ℕ) (l : List QEntry) :
    drainAux (f + 1) l =
      match heappop l with
      | Except.error e => Except.error e
      | Except.ok none => Except.ok []
      | Except.ok (some (e, h)) =>
        match drainAux f h with
        | Except.error e2 => Except.error e2
        | Except.ok t => Except.ok (e :: t) := rfl

theorem drainAux_sorted :
    ∀ (f : ℕ) (l : List QEntry), IsHeap l →
      ∀ out, drainAux f l = Except.ok out →
        out.Sorted (fun a b : QEntry => a.1 ≤ b.1) ∧ ∀ x ∈ out, x ∈ l := by
  intro f
  induction f with
  | zero =>
    intro l _ out h
    injection h with h
    subst h
    exact ⟨List.sorted_nil, fun x hx => absurd hx (List.not_mem_nil x)⟩
  | succ f ih =>
    intro l hl out h
    rw [drainAux_succ] at h
    split at h
    · exact Except.noConfusion h
    · injection h with h
      subst h
      exact ⟨List.sorted_nil, fun x hx => absurd hx (List.not_mem_nil x)⟩
    · rename_i e rest hpop
      obtain ⟨he, hrest, hlen, hsub⟩ := heappop_cons l hl e rest hpop
      split at h
      · exact Except.noConfusion h
      · rename_i t hrec
        injection h with h
        subst h
        have hr := ih rest hrest t hrec
        refine ⟨List.sorted_cons.mpr ⟨?_, hr.1⟩, ?_⟩
        · intro b hb
          rw [he]
          exact root_min l hl b (hsub b (hr.2 b hb))
        · intro x hx
          rcases List.mem_cons.mp hx with hxe | hxd
          · subst hxe
            rw [he]
            exact hGet_mem l 0 (by omega)
          · exact hsub x (hr.2 x hxd)

theorem drain_sorted (l : List QEntry) (hl : IsHeap l) (out : List QEntry)
    (h : drain l = Except.ok out) :
    out.Sorted (fun a b : QEntry => a.1 ≤ b.1) :=
  (drainAux_sorted l.length l hl out h).1

theorem pushAll_isHeap :
    ∀ (entries heap : List QEntry), IsHeap heap →
      ∀ l', pushAll entries heap = Except.ok l' → IsHeap l' := by
  intro entries
  induction entries with
  | nil =>
    intro heap hh l' h
    unfold pushAll at h
    injection h with h
    subst h
    exact hh
  | cons e t ih =>
    intro heap hh l' h
    unfold pushAll at h
    split at h
    · exact Except.noConfusion h
    · rename_i hmid hpush
      exact ih hmid (heappush_isHeap heap hh e hmid hpush) l' h

/-- Witness for the amended C3 at a concrete rejected pattern. -/
theorem claim_C3_signal_gate_witness :
    ((1:ℚ)/2 < 7/10 ∨ (3:ℚ)/2 < 1) ∧
    (process_fractal_pattern
      { symbol := "E", pattern_type := "SIDEWAYS", confidence := 1/2
        risk_score := 1, prediction_signal := "BUY" }).bind
      create_order_from_signal = none := by
  refine ⟨Or.inl (by norm_num), ?_⟩
  exact (claim_C3_signal_gate _).2.2 (Or.inl (by norm_num))

end HFTSpec
